import Mathlib

/-!
# RealTime-IssueTracker: the message handler of `server.js` and `escapeHtml` of `public/app.js`

A shallow embedding of the WebSocket message handler (`handleMessage` with `loadIssues`,
`ensureIssuesFile`, `saveIssuesAndCommit`, `nextId`, `broadcast`) and of the client-side
`escapeHtml`, followed by theorems about them.

Modelling conventions.

* An inbound message is an arbitrary JavaScript value `JVal` (what `JSON.parse` returns).
  The coercions the handler applies to it (`||`, `String(..)`, `Number(..)`, `.trim()`,
  property access, `=== "..."`, `!== undefined`) are defined below with their JavaScript
  meaning. A property access on `null` or `undefined` raises a `TypeError`; this is the
  `none` result of `getProp`, and it ends `handleMessage` with completion `thrown`.
  `String(..)`, the conversion inside a template literal and `Number(..)` raise a
  `TypeError` on an object that has an own property `toString` (as `{"toString":1}`), alone
  or as an element of an array; this is the `none` result of `jsString` and `toNumber`.
  The only `try` of `handleMessage` is around `JSON.parse`, so each of these exceptions
  leaves the function: completion `thrown`.
* Built-ins of the runtime whose full definition lies outside the repository are taken as
  the fields of a `Host`: `JSON.parse`, the number-to-string conversion and the
  string-to-number conversion. Every general theorem holds for every `Host`.
* The persisted collection has the shape of the data model: a list of `Issue` records whose
  `id` is a natural number and whose other fields are strings; `comments` may be absent, as
  the handler provides for with `it.comments || []`. The file `issues.json` is `missing`,
  `corrupt` (text that `JSON.parse` rejects) or `stored issues`; a file that parses to
  something else than such a list is outside the embedding. Writing the collection with
  `JSON.stringify` and reading it back with `JSON.parse` is taken to give the collection
  back.
* A string is a sequence of Unicode characters; strings with unpaired surrogates are
  outside the embedding.
* Numbers are IEEE-754 doubles in JavaScript. Identifiers are natural numbers here, and the
  one arithmetic operation on them, `max + 1` in `nextId`, is `jsAddOne`, which rounds as a
  double does.
* Exhaustion of a resource of the runtime (stack depth, memory, disk) is not modelled.
* The effects are explicit in `World`: the file, the list of attempted git commits, and for
  each connection of `wss.clients` its `readyState` and the payloads sent to it. The payload
  handed to `JSON.stringify` is kept as a `ServerMsg`.
-/

namespace IssueTracker

/-! ## JavaScript values and coercions -/

/-- A JavaScript value as `JSON.parse` produces it, with `undefined` for absent properties.
A number is given by its exact rational value; an object by its own properties, the first
entry of a key being the one that counts. -/
inductive JVal where
  | undefined
  | null
  | bool (b : Bool)
  | num (q : ℚ)
  | str (s : String)
  | arr (xs : List JVal)
  | obj (kvs : List (String × JVal))

/-- The built-ins of the JavaScript runtime that the code calls and whose definition is not
part of the repository. `jsonParse` is `JSON.parse` (`none` when it raises `SyntaxError`),
`numberToString` is the conversion of a number to a string, `stringToNumber` is the
conversion of a string to a number (`none` for `NaN` and the infinities, which equal no
identifier). -/
structure Host where
  jsonParse : String → Option JVal
  numberToString : ℚ → String
  stringToNumber : String → Option ℚ

/-- Truthiness (`ToBoolean`): `undefined`, `null`, `false`, `0` and `""` are falsy. -/
def truthy : JVal → Bool
  | .undefined => false
  | .null => false
  | .bool b => b
  | .num q => decide (q ≠ 0)
  | .str s => decide (s ≠ "")
  | .arr _ => true
  | .obj _ => true

/-- The operator `a || b`. -/
def jsOr (a b : JVal) : JVal :=
  if truthy a then a else b

/-- The test `v !== undefined`. -/
def isDefined : JVal → Bool
  | .undefined => false
  | _ => true

/-- The test `v === "s"` against a string literal. -/
def isStr (v : JVal) (s : String) : Bool :=
  match v with
  | .str t => decide (t = s)
  | _ => false

/-- Property access `v.k` for the property names the server reads (`type`, `issue`, `id`,
`fields`, `actor`, `comment`, `title`, `description`, `status`, `createdBy`, `author`,
`text`). On `undefined` and `null` it raises a `TypeError` (`none`); on an object it is the
own property, `undefined` when absent; on any other value it is `undefined`, no built-in
prototype defining one of these names. -/
def getProp (v : JVal) (k : String) : Option JVal :=
  match v with
  | .undefined => none
  | .null => none
  | .obj kvs => some ((kvs.lookup k).getD .undefined)
  | _ => some .undefined

mutual
/-- The conversion `String(v)`, also the conversion of `v` inside a template literal;
`none` when it raises a `TypeError`. An array is joined with commas. An object that has no
own property `toString` gives `[object Object]` through `Object.prototype.toString`. An
object that has an own property `toString` raises: the value of that property comes from
`JSON.parse`, so it is not callable and is passed over; `valueOf`, own or inherited, gives
no primitive value; and the conversion ends with a `TypeError`. -/
def jsString (h : Host) : JVal → Option String
  | .undefined => some "undefined"
  | .null => some "null"
  | .bool true => some "true"
  | .bool false => some "false"
  | .num q => some (h.numberToString q)
  | .str s => some s
  | .arr xs => joinElems h xs
  | .obj kvs => if (kvs.lookup "toString").isSome then none else some "[object Object]"
termination_by structural v => v
/-- The method `Array.prototype.join` with the separator `,`: `null` and `undefined`
elements give the empty string, every other element is converted with `String(..)`, and a
conversion that raises makes the join raise. -/
def joinElems (h : Host) : List JVal → Option String
  | [] => some ""
  | x :: xs =>
    match (match x with
      | .undefined => some ""
      | .null => some ""
      | v => jsString h v) with
    | none => none
    | some s =>
      match xs with
      | [] => some s
      | _ =>
        match joinElems h xs with
        | none => none
        | some r => some (s ++ "," ++ r)
termination_by structural xs => xs
end

/-- The conversion `Number(v)`. The outer `none` is a raised `TypeError`; the inner `none`
is `NaN` (or an infinity, which equals no identifier either). An array is first converted
to a string. An object without an own property `toString` gives `NaN`; an object with one
raises, as in `jsString`. -/
def toNumber (h : Host) : JVal → Option (Option ℚ)
  | .undefined => some none
  | .null => some (some 0)
  | .bool true => some (some 1)
  | .bool false => some (some 0)
  | .num q => some (some q)
  | .str s => some (h.stringToNumber s)
  | .arr xs =>
    match jsString h (.arr xs) with
    | none => none
    | some s => some (h.stringToNumber s)
  | .obj kvs => if (kvs.lookup "toString").isSome then none else some none

/-- The statement `if (f !== undefined) { it.x = String(f); }`. The outer `none` is a raised
`TypeError`; `some none` leaves the field as it is; `some (some s)` sets it to `s`. -/
def fieldUpdate (h : Host) (f : JVal) : Option (Option String) :=
  if isDefined f then
    match jsString h f with
    | none => none
    | some s => some (some s)
  else some none

/-- A number inside a template literal. -/
def showNumber (h : Host) : Option ℚ → String
  | none => "NaN"
  | some q => h.numberToString q

/-- White space and line terminators, the characters `String.prototype.trim` removes. -/
def isJsSpace (c : Char) : Bool :=
  let n := c.toNat
  n = 9 || n = 10 || n = 11 || n = 12 || n = 13 || n = 32 || n = 160 || n = 5760 ||
  (8192 ≤ n && n ≤ 8202) || n = 8232 || n = 8233 || n = 8239 || n = 8287 || n = 12288 ||
  n = 65279

/-- The method `String.prototype.trim`. -/
def jsTrim (s : String) : String :=
  String.mk ((((s.data.dropWhile isJsSpace).reverse).dropWhile isJsSpace).reverse)

/-- The sum `n + 1` of doubles, for a natural number `n` that is a double. Below `2^53`
every natural number is a double and the sum is exact. From `2^53` to `2^54` the doubles
are the even numbers, `n + 1` lies halfway between `n` and `n + 2`, and the tie goes to the
one with an even significand. From `2^54` on the doubles are at least 4 apart and `n + 1`
rounds back to `n`. -/
def jsAddOne (n : Nat) : Nat :=
  if n < 2 ^ 53 then n + 1
  else if n < 2 ^ 54 then (if n % 4 = 0 then n else n + 2)
  else n

/-! ## Data model and state -/

/-- A comment of an issue. -/
structure Comment where
  author : String
  text : String
  createdAt : String
deriving DecidableEq, Repr

/-- An issue of the persisted collection. -/
structure Issue where
  id : Nat
  title : String
  description : String
  status : String
  createdBy : String
  createdAt : String
  comments : Option (List Comment)
deriving DecidableEq, Repr

/-- The payload of a message the server sends, before `JSON.stringify`. -/
inductive ServerMsg where
  | init (issues : List Issue)
  | update (issues : List Issue)
  | error (message : String)
deriving DecidableEq, Repr

/-- A connection of `wss.clients`: its `readyState` and the payloads sent to it so far. -/
structure Client where
  readyState : Nat
  received : List ServerMsg
deriving DecidableEq, Repr

/-- The constant `WebSocket.OPEN`. -/
def OPEN : Nat := 1

/-- The file `issues.json`. -/
inductive FileState where
  | missing
  | corrupt (raw : String)
  | stored (issues : List Issue)
deriving DecidableEq, Repr

/-- Everything `handleMessage` reads or writes: the file, the messages of the git commits
attempted so far, and the connections. -/
structure World where
  file : FileState
  commits : List String
  clients : List Client
deriving DecidableEq, Repr

/-- How a call ended: it returned, or an exception left it. -/
inductive Completion where
  | normal
  | thrown
deriving DecidableEq, Repr

/-- The state after a call and how the call ended. -/
structure Result where
  world : World
  completion : Completion
deriving DecidableEq, Repr

/-! ## server.js -/

/-- The function `ensureIssuesFile`: a missing file is created as `[]` and a first commit
is attempted. -/
def ensureIssuesFile (w : World) : World :=
  match w.file with
  | .missing =>
    { w with file := .stored [], commits := w.commits ++ ["Initial issues.json created by server"] }
  | _ => w

/-- The function `loadIssues`: the stored collection; a file that does not parse is reset
to `[]`. -/
def loadIssues (w : World) : List Issue × World :=
  let w1 := ensureIssuesFile w
  match w1.file with
  | .stored issues => (issues, w1)
  | .corrupt _ => ([], { w1 with file := .stored [] })
  | .missing => ([], w1)

/-- The function `saveIssuesAndCommit`: the file is overwritten and a commit with the given
message is attempted. -/
def saveIssuesAndCommit (issues : List Issue) (commitMessage : String) (w : World) : World :=
  { w with file := .stored issues, commits := w.commits ++ [commitMessage] }

/-- The function `nextId`: `issues.reduce((m, it) => Math.max(m, it.id || 0), 0) + 1`. On a
natural number `it.id || 0` is `it.id`. -/
def nextId (issues : List Issue) : Nat :=
  jsAddOne (issues.foldl (fun m it => max m it.id) 0)

/-- One `client.send(msg)`. -/
def deliver (payload : ServerMsg) (c : Client) : Client :=
  { c with received := c.received ++ [payload] }

/-- The function `broadcast`: the payload goes to every client whose `readyState` is
`OPEN`. -/
def broadcast (payload : ServerMsg) (w : World) : World :=
  { w with clients := w.clients.map (fun c => if c.readyState = OPEN then deliver payload c else c) }

/-- The call `ws.send(..)` on the connection at position `ws` of `wss.clients`. -/
def wsSend (ws : Nat) (payload : ServerMsg) (w : World) : World :=
  { w with clients := w.clients.modify (deliver payload) ws }

/-- The assignment through the reference `it` that `issues.find` returned: the first
element satisfying the predicate is replaced. -/
def replaceFirst (p : Issue → Bool) (it : Issue) : List Issue → List Issue
  | [] => []
  | x :: xs => if p x then it :: xs else x :: replaceFirst p it xs

/-- The comparison `x.id === id` of a stored identifier with a converted number. -/
def idMatches (id : Option ℚ) (x : Issue) : Bool :=
  decide (some (x.id : ℚ) = id)

/-- The `create_issue` branch of `handleMessage`. It raises when `msg.issue` is `null` or
`undefined` and when one of the three `String(..)` conversions raises; nothing has been
saved or sent by then. -/
def handleCreate (h : Host) (now : String) (msg : JVal) (issues : List Issue) (w : World) :
    Result :=
  let id := nextId issues
  match getProp msg "issue" with
  | none => ⟨w, .thrown⟩
  | some issue =>
    match getProp issue "title", getProp issue "description", getProp issue "createdBy" with
    | some t, some d, some c =>
      match jsString h (jsOr t (.str "")), jsString h (jsOr d (.str "")),
          jsString h (jsOr c (.str "Unknown")) with
      | some ts, some ds, some cs =>
        let newIssue : Issue :=
          { id := id
            title := jsTrim ts
            description := jsTrim ds
            status := "Open"
            createdBy := jsTrim cs
            createdAt := now
            comments := some [] }
        let issues1 := issues ++ [newIssue]
        let cm := "Issue #" ++ h.numberToString (id : ℚ) ++ " created by " ++
          newIssue.createdBy ++ ": " ++ newIssue.title
        ⟨broadcast (.update issues1) (saveIssuesAndCommit issues1 cm w), .normal⟩
      | _, _, _ => ⟨w, .thrown⟩
    | _, _, _ => ⟨w, .thrown⟩

/-- The value `changed.join(', ') || 'no-op'`. -/
def changedText (changed : List String) : String :=
  if ", ".intercalate changed = "" then "no-op" else ", ".intercalate changed

/-- The `update_issue` branch of `handleMessage`. It raises when `Number(msg.id)` raises,
and, once the issue is found, when the `String(..)` of a provided field or the conversion
of `actor` in the commit message raises; the assignments made to `it` before that are
lost, nothing having been saved or sent. -/
def handleUpdate (h : Host) (msg : JVal) (ws : Nat) (issues : List Issue) (w : World) :
    Result :=
  match getProp msg "id", getProp msg "fields", getProp msg "actor" with
  | some idv, some fv, some av =>
    match toNumber h idv with
    | none => ⟨w, .thrown⟩
    | some id =>
      let fields := jsOr fv (.obj [])
      let actor := jsOr av (.str "Someone")
      match issues.find? (idMatches id) with
      | none => ⟨wsSend ws (.error "Issue not found") w, .normal⟩
      | some it =>
        match getProp fields "title", getProp fields "description", getProp fields "status" with
        | some ft, some fd, some fs =>
          match fieldUpdate h ft, fieldUpdate h fd, fieldUpdate h fs, jsString h actor with
          | some t, some d, some s, some actorText =>
            let it1 : Issue :=
              { it with
                title := t.getD it.title
                description := d.getD it.description
                status := s.getD it.status }
            let changed := (if t.isSome then ["title"] else []) ++
              (if d.isSome then ["description"] else []) ++
              (if s.isSome then ["status"] else [])
            let issues1 := replaceFirst (idMatches id) it1 issues
            let cm := "Issue #" ++ showNumber h id ++ " updated (" ++ changedText changed ++
              ") by " ++ actorText
            ⟨broadcast (.update issues1) (saveIssuesAndCommit issues1 cm w), .normal⟩
          | _, _, _, _ => ⟨w, .thrown⟩
        | _, _, _ => ⟨w, .thrown⟩
  | _, _, _ => ⟨w, .thrown⟩

/-- The `add_comment` branch of `handleMessage`. It raises when `Number(msg.id)` raises,
and, once the issue is found, when `msg.comment` is `null` or `undefined` or one of the two
`String(..)` conversions raises; nothing has been saved or sent by then. -/
def handleAddComment (h : Host) (now : String) (msg : JVal) (ws : Nat) (issues : List Issue)
    (w : World) : Result :=
  match getProp msg "id" with
  | none => ⟨w, .thrown⟩
  | some idv =>
    match toNumber h idv with
    | none => ⟨w, .thrown⟩
    | some id =>
      match issues.find? (idMatches id) with
      | none => ⟨wsSend ws (.error "Issue not found") w, .normal⟩
      | some it =>
        match getProp msg "comment" with
        | none => ⟨w, .thrown⟩
        | some cv =>
          match getProp cv "author", getProp cv "text" with
          | some a, some t =>
            match jsString h (jsOr a (.str "Anonymous")), jsString h (jsOr t (.str "")) with
            | some author, some ts =>
              let comment : Comment := { author := author, text := jsTrim ts, createdAt := now }
              let it1 := { it with comments := some (it.comments.getD [] ++ [comment]) }
              let issues1 := replaceFirst (idMatches id) it1 issues
              let cm := "Comment added to issue #" ++ showNumber h id ++ " by " ++ author
              ⟨broadcast (.update issues1) (saveIssuesAndCommit issues1 cm w), .normal⟩
            | _, _ => ⟨w, .thrown⟩
          | _, _ => ⟨w, .thrown⟩

/-- The function `handleMessage(raw, ws)`, called at time `now`. -/
def handleMessage (h : Host) (now : String) (raw : String) (ws : Nat) (w : World) : Result :=
  match h.jsonParse raw with
  | none => ⟨wsSend ws (.error "Invalid JSON") w, .normal⟩
  | some msg =>
    let loaded := loadIssues w
    let issues := loaded.1
    let w1 := loaded.2
    match getProp msg "type" with
    | none => ⟨w1, .thrown⟩
    | some ty =>
      if isStr ty "create_issue" then handleCreate h now msg issues w1
      else if isStr ty "update_issue" then handleUpdate h msg ws issues w1
      else if isStr ty "add_comment" then handleAddComment h now msg ws issues w1
      else ⟨wsSend ws (.error "Unknown message type") w1, .normal⟩

/-- One inbound message event: the time of handling, the payload and the position of the
receiving connection in `wss.clients`. -/
structure Request where
  now : String
  raw : String
  ws : Nat
deriving DecidableEq, Repr

/-- The listener `ws.on('message', (message) => handleMessage(message, ws))` over a sequence
of message events, in order. The listener catches nothing, so an exception leaving
`handleMessage` ends the run. -/
def handleAll (h : Host) : List Request → World → Result
  | [], w => ⟨w, .normal⟩
  | r :: rs, w =>
    match handleMessage h r.now r.raw r.ws w with
    | ⟨w1, .normal⟩ => handleAll h rs w1
    | ⟨w1, .thrown⟩ => ⟨w1, .thrown⟩

/-! ## public/app.js -/

/-- The test `str !== 0` negated: the value is the number zero. -/
def isZero : JVal → Bool
  | .num q => decide (q = 0)
  | _ => false

/-- The method `String.prototype.replaceAll` for a pattern of one character and a
replacement without `$`. -/
def replaceAll (pat : Char) (rep : String) (s : String) : String :=
  String.mk (s.data.flatMap (fun c => if c = pat then rep.data else [c]))

/-- The double quote. -/
def dquote : Char := Char.ofNat 34

/-- The single quote. -/
def squote : Char := Char.ofNat 39

/-- The function `escapeHtml` of `public/app.js`; `none` when `String(str)` raises. -/
def escapeHtml (h : Host) (str : JVal) : Option String :=
  if !truthy str && !isZero str then some ""
  else
    match jsString h str with
    | none => none
    | some s =>
      some (replaceAll squote "&#39;"
        (replaceAll dquote "&quot;"
          (replaceAll '>' "&gt;"
            (replaceAll '<' "&lt;"
              (replaceAll '&' "&amp;" s)))))

/-! ## Notions the statements use -/

/-- The value of `v.k`, `undefined` where the access raises. -/
def prop (v : JVal) (k : String) : JVal :=
  (getProp v k).getD .undefined

/-- The value is `null` or `undefined`. -/
def isNullish : JVal → Bool
  | .undefined => true
  | .null => true
  | _ => false

/-- Whether the `create_issue` branch returns normally on the message: `msg.issue` is
neither `null` nor `undefined` and the `String(..)` of its three fields, defaults applied,
does not raise. -/
def createReturns (h : Host) (msg : JVal) : Bool :=
  !isNullish (prop msg "issue") &&
  (jsString h (jsOr (prop (prop msg "issue") "title") (.str ""))).isSome &&
  (jsString h (jsOr (prop (prop msg "issue") "description") (.str ""))).isSome &&
  (jsString h (jsOr (prop (prop msg "issue") "createdBy") (.str "Unknown"))).isSome

/-- Whether the `update_issue` branch returns normally on a message whose issue is found:
the `String(..)` of each provided field and the conversion of the actor in the commit
message do not raise. -/
def updateReturns (h : Host) (msg : JVal) : Bool :=
  (fieldUpdate h (prop (jsOr (prop msg "fields") (.obj [])) "title")).isSome &&
  (fieldUpdate h (prop (jsOr (prop msg "fields") (.obj [])) "description")).isSome &&
  (fieldUpdate h (prop (jsOr (prop msg "fields") (.obj [])) "status")).isSome &&
  (jsString h (jsOr (prop msg "actor") (.str "Someone"))).isSome

/-- Whether the `add_comment` branch returns normally on a message whose issue is found:
`msg.comment` is neither `null` nor `undefined` and the `String(..)` of its author and
text, defaults applied, does not raise. -/
def commentReturns (h : Host) (msg : JVal) : Bool :=
  !isNullish (prop msg "comment") &&
  (jsString h (jsOr (prop (prop msg "comment") "author") (.str "Anonymous"))).isSome &&
  (jsString h (jsOr (prop (prop msg "comment") "text") (.str ""))).isSome

/-- The three values of the status enumeration of the data model. -/
def validStatus (s : String) : Bool :=
  decide (s = "Open") || decide (s = "In Progress") || decide (s = "Closed")

/-- The five characters `escapeHtml` replaces. -/
def isHtmlSpecial (c : Char) : Bool :=
  decide (c = '&') || decide (c = '<') || decide (c = '>') || decide (c = dquote) ||
    decide (c = squote)

/-- What the five replacements of `escapeHtml` together make of one character. -/
def escapeChar (c : Char) : List Char :=
  if c = '&' then "&amp;".data
  else if c = '<' then "&lt;".data
  else if c = '>' then "&gt;".data
  else if c = dquote then "&quot;".data
  else if c = squote then "&#39;".data
  else [c]

/-- The entity at the head of a text, with the character it stands for and the text after
it. -/
def entityAt (cs : List Char) : Option (Char × List Char) :=
  if "&amp;".data.isPrefixOf cs then some ('&', cs.drop 5)
  else if "&lt;".data.isPrefixOf cs then some ('<', cs.drop 4)
  else if "&gt;".data.isPrefixOf cs then some ('>', cs.drop 4)
  else if "&quot;".data.isPrefixOf cs then some (dquote, cs.drop 6)
  else if "&#39;".data.isPrefixOf cs then some (squote, cs.drop 5)
  else none

/-- Decoding with a bound on the number of steps. -/
def decodeFuel : Nat → List Char → List Char
  | 0, _ => []
  | _ + 1, [] => []
  | n + 1, c :: rest =>
    match entityAt (c :: rest) with
    | some (d, rest1) => d :: decodeFuel n rest1
    | none => c :: decodeFuel n rest

/-- Spec-side definition, not code of the repository: decoding of the five entities `&amp;`
`&lt;` `&gt;` `&quot;` `&#39;` in one pass from left to right, each occurrence giving back
its character. -/
def decodeEntities (s : String) : String :=
  String.mk (decodeFuel s.length s.data)

/-! ## Sample data for the closed statements -/

/-- The payload `null`. -/
def payloadNull : String := "null"

/-- The payload `{"type":"ping"}`. -/
def payloadPing : String := "\x7b\"type\":\"ping\"\x7d"

/-- The payload `{"type":"create_issue"}`. -/
def payloadCreateBare : String := "\x7b\"type\":\"create_issue\"\x7d"

/-- The payload `{"type":"create_issue","issue":{"title":"Bug A","createdBy":"Alice"}}`. -/
def payloadCreateBugA : String :=
  "\x7b\"type\":\"create_issue\",\"issue\":\x7b\"title\":\"Bug A\",\"createdBy\":\"Alice\"\x7d\x7d"

/-- The payload `{"type":"create_issue","issue":{"title":0,"createdBy":""}}`. -/
def payloadCreateFalsy : String :=
  "\x7b\"type\":\"create_issue\",\"issue\":\x7b\"title\":0,\"createdBy\":\"\"\x7d\x7d"

/-- The payload `{"type":"update_issue","id":1,"fields":{"status":"Closed"},"actor":"Bob"}`. -/
def payloadUpdateClosed : String :=
  "\x7b\"type\":\"update_issue\",\"id\":1,\"fields\":\x7b\"status\":\"Closed\"\x7d,\"actor\":\"Bob\"\x7d"

/-- The payload `{"type":"update_issue","id":1,"fields":{"status":"Done"},"actor":"Bob"}`. -/
def payloadUpdateDone : String :=
  "\x7b\"type\":\"update_issue\",\"id\":1,\"fields\":\x7b\"status\":\"Done\"\x7d,\"actor\":\"Bob\"\x7d"

/-- The payload `{"type":"add_comment","id":99,"comment":{"author":"X","text":"hi"}}`. -/
def payloadComment99 : String :=
  "\x7b\"type\":\"add_comment\",\"id\":99,\"comment\":\x7b\"author\":\"X\",\"text\":\"hi\"\x7d\x7d"

/-- The payload `{"type":"add_comment","id":1,"comment":{"author":"X","text":" hi "}}`. -/
def payloadComment1 : String :=
  "\x7b\"type\":\"add_comment\",\"id\":1,\"comment\":\x7b\"author\":\"X\",\"text\":\" hi \"\x7d\x7d"

/-- The payload `{"type":"add_comment","id":1,"comment":{"author":0,"text":"hi"}}`. -/
def payloadCommentZero : String :=
  "\x7b\"type\":\"add_comment\",\"id\":1,\"comment\":\x7b\"author\":0,\"text\":\"hi\"\x7d\x7d"

/-- The payload `{"type":"add_comment","id":1}`. -/
def payloadCommentBare : String := "\x7b\"type\":\"add_comment\",\"id\":1\x7d"

/-- The message `{type:"ping"}`. -/
def msgPing : JVal := .obj [("type", .str "ping")]

/-- The message `{type:"create_issue"}`, without an `issue` field. -/
def msgCreateBare : JVal := .obj [("type", .str "create_issue")]

/-- The message `{type:"create_issue", issue:{title:"Bug A", createdBy:"Alice"}}`. -/
def msgCreateBugA : JVal :=
  .obj [("type", .str "create_issue"),
    ("issue", .obj [("title", .str "Bug A"), ("createdBy", .str "Alice")])]

/-- The message `{type:"create_issue", issue:{title:0, createdBy:""}}`. -/
def msgCreateFalsy : JVal :=
  .obj [("type", .str "create_issue"),
    ("issue", .obj [("title", .num 0), ("createdBy", .str "")])]

/-- The message `{type:"update_issue", id:1, fields:{status:"Closed"}, actor:"Bob"}`. -/
def msgUpdateClosed : JVal :=
  .obj [("type", .str "update_issue"), ("id", .num 1),
    ("fields", .obj [("status", .str "Closed")]), ("actor", .str "Bob")]

/-- The message `{type:"update_issue", id:1, fields:{status:"Done"}, actor:"Bob"}`. -/
def msgUpdateDone : JVal :=
  .obj [("type", .str "update_issue"), ("id", .num 1),
    ("fields", .obj [("status", .str "Done")]), ("actor", .str "Bob")]

/-- The message `{type:"add_comment", id:99, comment:{author:"X", text:"hi"}}`. -/
def msgComment99 : JVal :=
  .obj [("type", .str "add_comment"), ("id", .num 99),
    ("comment", .obj [("author", .str "X"), ("text", .str "hi")])]

/-- The message `{type:"add_comment", id:1, comment:{author:"X", text:" hi "}}`. -/
def msgComment1 : JVal :=
  .obj [("type", .str "add_comment"), ("id", .num 1),
    ("comment", .obj [("author", .str "X"), ("text", .str " hi ")])]

/-- The message `{type:"add_comment", id:1, comment:{author:0, text:"hi"}}`. -/
def msgCommentZero : JVal :=
  .obj [("type", .str "add_comment"), ("id", .num 1),
    ("comment", .obj [("author", .num 0), ("text", .str "hi")])]

/-- The message `{type:"add_comment", id:1}`, without a `comment` field. -/
def msgCommentBare : JVal := .obj [("type", .str "add_comment"), ("id", .num 1)]

/-- The object `{"toString":1}`: `String(..)` and `Number(..)` raise on it. -/
def objToString : JVal := .obj [("toString", .num 1)]

/-- The payload `{"type":"update_issue","id":{"toString":1},"fields":{"status":"Closed"},
"actor":"Bob"}`. -/
def payloadUpdateIdObj : String :=
  "\x7b\"type\":\"update_issue\",\"id\":\x7b\"toString\":1\x7d,\"fields\":\x7b\"status\":\"Closed\"\x7d,\"actor\":\"Bob\"\x7d"

/-- The message of `payloadUpdateIdObj`. -/
def msgUpdateIdObj : JVal :=
  .obj [("type", .str "update_issue"), ("id", objToString),
    ("fields", .obj [("status", .str "Closed")]), ("actor", .str "Bob")]

/-- The payload `{"type":"add_comment","id":{"toString":1},"comment":{"author":"X",
"text":"hi"}}`. -/
def payloadCommentIdObj : String :=
  "\x7b\"type\":\"add_comment\",\"id\":\x7b\"toString\":1\x7d,\"comment\":\x7b\"author\":\"X\",\"text\":\"hi\"\x7d\x7d"

/-- The message of `payloadCommentIdObj`. -/
def msgCommentIdObj : JVal :=
  .obj [("type", .str "add_comment"), ("id", objToString),
    ("comment", .obj [("author", .str "X"), ("text", .str "hi")])]

/-- The payload `{"type":"update_issue","id":1,"fields":{"status":"Closed"},
"actor":{"toString":1}}`. -/
def payloadUpdateActorObj : String :=
  "\x7b\"type\":\"update_issue\",\"id\":1,\"fields\":\x7b\"status\":\"Closed\"\x7d,\"actor\":\x7b\"toString\":1\x7d\x7d"

/-- The message of `payloadUpdateActorObj`. -/
def msgUpdateActorObj : JVal :=
  .obj [("type", .str "update_issue"), ("id", .num 1),
    ("fields", .obj [("status", .str "Closed")]), ("actor", objToString)]

/-- The payload `{"type":"update_issue","id":1,"fields":{"title":{"toString":1}},
"actor":"Bob"}`. -/
def payloadUpdateTitleObj : String :=
  "\x7b\"type\":\"update_issue\",\"id\":1,\"fields\":\x7b\"title\":\x7b\"toString\":1\x7d\x7d,\"actor\":\"Bob\"\x7d"

/-- The message of `payloadUpdateTitleObj`. -/
def msgUpdateTitleObj : JVal :=
  .obj [("type", .str "update_issue"), ("id", .num 1),
    ("fields", .obj [("title", objToString)]), ("actor", .str "Bob")]

/-- The payload `{"type":"add_comment","id":1,"comment":{"author":{"toString":1},
"text":"hi"}}`. -/
def payloadCommentAuthorObj : String :=
  "\x7b\"type\":\"add_comment\",\"id\":1,\"comment\":\x7b\"author\":\x7b\"toString\":1\x7d,\"text\":\"hi\"\x7d\x7d"

/-- The message of `payloadCommentAuthorObj`. -/
def msgCommentAuthorObj : JVal :=
  .obj [("type", .str "add_comment"), ("id", .num 1),
    ("comment", .obj [("author", objToString), ("text", .str "hi")])]

/-- The payload `{"type":"create_issue","issue":{"title":{"toString":1},
"createdBy":"Alice"}}`. -/
def payloadCreateTitleObj : String :=
  "\x7b\"type\":\"create_issue\",\"issue\":\x7b\"title\":\x7b\"toString\":1\x7d,\"createdBy\":\"Alice\"\x7d\x7d"

/-- The message of `payloadCreateTitleObj`. -/
def msgCreateTitleObj : JVal :=
  .obj [("type", .str "create_issue"),
    ("issue", .obj [("title", objToString), ("createdBy", .str "Alice")])]

/-- What `JSON.parse` returns on the sample payloads; any other text is taken as
unparseable. -/
def sampleParse (raw : String) : Option JVal :=
  if raw = payloadNull then some .null
  else if raw = payloadPing then some msgPing
  else if raw = payloadCreateBare then some msgCreateBare
  else if raw = payloadCreateBugA then some msgCreateBugA
  else if raw = payloadCreateFalsy then some msgCreateFalsy
  else if raw = payloadUpdateClosed then some msgUpdateClosed
  else if raw = payloadUpdateDone then some msgUpdateDone
  else if raw = payloadComment99 then some msgComment99
  else if raw = payloadComment1 then some msgComment1
  else if raw = payloadCommentZero then some msgCommentZero
  else if raw = payloadCommentBare then some msgCommentBare
  else if raw = payloadUpdateIdObj then some msgUpdateIdObj
  else if raw = payloadCommentIdObj then some msgCommentIdObj
  else if raw = payloadUpdateActorObj then some msgUpdateActorObj
  else if raw = payloadUpdateTitleObj then some msgUpdateTitleObj
  else if raw = payloadCommentAuthorObj then some msgCommentAuthorObj
  else if raw = payloadCreateTitleObj then some msgCreateTitleObj
  else none

/-- The number a string of decimal digits stands for; `none` for any other string. -/
def digitsValue (cs : List Char) : Option Nat :=
  if cs.all Char.isDigit then some (cs.foldl (fun n c => 10 * n + (c.toNat - 48)) 0) else none

/-- A host for the closed statements. `JSON.parse` is given on the sample payloads. An
integer is printed in decimal (the closed statements print no other number). A string of
decimal digits, with white space around it, is read as that number, the empty string as 0
(the closed statements read no other string). -/
def sampleHost : Host where
  jsonParse := sampleParse
  numberToString := fun q => if q.den = 1 then toString q.num else "NaN"
  stringToNumber := fun s =>
    if (jsTrim s).data = [] then some 0
    else (digitsValue (jsTrim s).data).map (fun n => (n : ℚ))

/-- A stored issue with identifier 1. -/
def issueOne : Issue :=
  { id := 1, title := "Bug A", description := "", status := "Open", createdBy := "Alice",
    createdAt := "2024-01-01T00:00:00.000Z", comments := some [] }

/-- A stored issue whose identifier is `2^53`. -/
def issueBig : Issue :=
  { id := 2 ^ 53, title := "Big", description := "", status := "Open", createdBy := "Alice",
    createdAt := "2024-01-01T00:00:00.000Z", comments := some [] }

/-- Two connections, the first open, the second closed. -/
def sampleClients : List Client :=
  [{ readyState := 1, received := [] }, { readyState := 3, received := [] }]

/-- The time of the sample calls. -/
def sampleNow : String := "2024-01-02T00:00:00.000Z"

/-- A state whose file holds no issue. -/
def worldEmpty : World := { file := .stored [], commits := [], clients := sampleClients }

/-- A state whose file holds the issue with identifier 1. -/
def worldOne : World := { file := .stored [issueOne], commits := [], clients := sampleClients }

/-- A state whose file holds the issue with identifier `2^53`. -/
def worldBig : World := { file := .stored [issueBig], commits := [], clients := sampleClients }

/-- A state whose file does not parse. -/
def worldCorrupt : World :=
  { file := .corrupt "not json", commits := [], clients := sampleClients }

/-! ## Auxiliary facts about the handler -/

theorem obj_of_isStr_prop {msg : JVal} {k s : String} (hs : isStr (prop msg k) s = true) :
    ∃ kvs, msg = .obj kvs := by
  cases msg <;> simp [prop, getProp, isStr] at hs ⊢

theorem getProp_obj (kvs : List (String × JVal)) (k : String) :
    getProp (.obj kvs) k = some (prop (.obj kvs) k) := by
  simp [prop, getProp]

theorem getProp_of_truthy {v : JVal} (hv : truthy v = true) (k : String) :
    getProp v k = some (prop v k) := by
  cases v <;> simp [prop, getProp, truthy] at hv ⊢

theorem getProp_of_not_nullish {v : JVal} (hv : isNullish v = false) (k : String) :
    getProp v k = some (prop v k) := by
  cases v <;> simp [prop, getProp, isNullish] at hv ⊢

theorem truthy_jsOr {a b : JVal} (hb : truthy b = true) : truthy (jsOr a b) = true := by
  unfold jsOr
  split <;> simp_all

theorem loadIssues_stored {w : World} {issues : List Issue} (hfile : w.file = .stored issues) :
    loadIssues w = (issues, w) := by
  simp [loadIssues, ensureIssuesFile, hfile]

theorem find_none_of_no_match {id : Option ℚ} {issues : List Issue}
    (hno : ∀ x ∈ issues, id ≠ some (x.id : ℚ)) : issues.find? (idMatches id) = none := by
  rw [List.find?_eq_none]
  intro x hx
  simp only [idMatches, decide_eq_true_eq]
  exact fun hh => hno x hx hh.symm

theorem wsSend_clients_getElem (ws : Nat) (payload : ServerMsg) (w : World) (i : Nat) (c : Client)
    (hc : w.clients[i]? = some c) :
    (wsSend ws payload w).clients[i]? =
      some (if i = ws then { c with received := c.received ++ [payload] } else c) := by
  simp only [wsSend, List.getElem?_modify, hc, deliver]
  by_cases hi : ws = i
  · subst hi; simp
  · have : ¬ i = ws := fun hh => hi hh.symm
    simp [hi, this]

theorem isStr_excl {v : JVal} {s : String} (t : String) (hs : isStr v s = true) (hne : s ≠ t) :
    isStr v t = false := by
  cases v <;> simp [isStr] at hs ⊢
  subst hs; exact hne

theorem loadIssues_clients (w : World) : (loadIssues w).2.clients = w.clients := by
  rcases w with ⟨f, c, cl⟩
  cases f <;> rfl

theorem handleMessage_create (h : Host) (now raw : String) (ws : Nat) (w : World) (msg : JVal)
    (hparse : h.jsonParse raw = some msg) (hty : isStr (prop msg "type") "create_issue" = true) :
    handleMessage h now raw ws w = handleCreate h now msg (loadIssues w).1 (loadIssues w).2 := by
  obtain ⟨kvs, rfl⟩ := obj_of_isStr_prop hty
  simp only [handleMessage, hparse, getProp_obj, hty, if_true]

theorem handleMessage_update (h : Host) (now raw : String) (ws : Nat) (w : World) (msg : JVal)
    (hparse : h.jsonParse raw = some msg) (hty : isStr (prop msg "type") "update_issue" = true) :
    handleMessage h now raw ws w = handleUpdate h msg ws (loadIssues w).1 (loadIssues w).2 := by
  obtain ⟨kvs, rfl⟩ := obj_of_isStr_prop hty
  have h1 := isStr_excl "create_issue" hty (by decide)
  simp [handleMessage, hparse, getProp_obj, hty, h1]

theorem handleMessage_comment (h : Host) (now raw : String) (ws : Nat) (w : World) (msg : JVal)
    (hparse : h.jsonParse raw = some msg) (hty : isStr (prop msg "type") "add_comment" = true) :
    handleMessage h now raw ws w =
      handleAddComment h now msg ws (loadIssues w).1 (loadIssues w).2 := by
  obtain ⟨kvs, rfl⟩ := obj_of_isStr_prop hty
  have h1 := isStr_excl "create_issue" hty (by decide)
  have h2 := isStr_excl "update_issue" hty (by decide)
  simp [handleMessage, hparse, getProp_obj, hty, h1, h2]

theorem handleMessage_other (h : Host) (now raw : String) (ws : Nat) (w : World) (msg : JVal)
    (hparse : h.jsonParse raw = some msg) (hnn : isNullish msg = false)
    (h1 : isStr (prop msg "type") "create_issue" = false)
    (h2 : isStr (prop msg "type") "update_issue" = false)
    (h3 : isStr (prop msg "type") "add_comment" = false) :
    handleMessage h now raw ws w =
      ⟨wsSend ws (.error "Unknown message type") (loadIssues w).2, .normal⟩ := by
  simp [handleMessage, hparse, getProp_of_not_nullish hnn, h1, h2, h3]

theorem handleMessage_nullish (h : Host) (now raw : String) (ws : Nat) (w : World) (msg : JVal)
    (hparse : h.jsonParse raw = some msg) (hnn : isNullish msg = true) :
    handleMessage h now raw ws w = ⟨(loadIssues w).2, .thrown⟩ := by
  cases msg <;> simp [isNullish] at hnn <;> simp [handleMessage, hparse, getProp]

theorem fieldUpdate_some_some {h : Host} {f : JVal} {s : String}
    (hf : fieldUpdate h f = some (some s)) : isDefined f = true ∧ jsString h f = some s := by
  unfold fieldUpdate at hf
  by_cases hd : isDefined f = true
  · rw [if_pos hd] at hf
    cases hj : jsString h f with
    | none => rw [hj] at hf; cases hf
    | some t =>
      rw [hj] at hf
      simp only [Option.some.injEq] at hf
      exact ⟨hd, by rw [hf]⟩
  · rw [if_neg hd] at hf
    cases hf

theorem fieldUpdate_of_defined {h : Host} {f : JVal} {s : String}
    (hd : isDefined f = true) (hj : jsString h f = some s) :
    fieldUpdate h f = some (some s) := by
  simp [fieldUpdate, hd, hj]

theorem handleCreate_ok (h : Host) (now : String) (msg : JVal) (issues : List Issue) (w : World)
    (t d c : String) (hmsg : isNullish msg = false)
    (hissue : isNullish (prop msg "issue") = false)
    (ht : jsString h (jsOr (prop (prop msg "issue") "title") (.str "")) = some t)
    (hd : jsString h (jsOr (prop (prop msg "issue") "description") (.str "")) = some d)
    (hc : jsString h (jsOr (prop (prop msg "issue") "createdBy") (.str "Unknown")) = some c) :
    ∃ cm, handleCreate h now msg issues w =
      ⟨broadcast (.update (issues ++ [
          { id := nextId issues, title := jsTrim t, description := jsTrim d, status := "Open",
            createdBy := jsTrim c, createdAt := now, comments := some [] }]))
        (saveIssuesAndCommit (issues ++ [
          { id := nextId issues, title := jsTrim t, description := jsTrim d, status := "Open",
            createdBy := jsTrim c, createdAt := now, comments := some [] }]) cm w), .normal⟩ := by
  simp only [handleCreate, getProp_of_not_nullish hmsg, getProp_of_not_nullish hissue, ht, hd, hc]
  exact ⟨_, rfl⟩

theorem createReturns_true {h : Host} {msg : JVal} (hr : createReturns h msg = true) :
    isNullish (prop msg "issue") = false ∧
    ∃ t d c,
      jsString h (jsOr (prop (prop msg "issue") "title") (.str "")) = some t ∧
      jsString h (jsOr (prop (prop msg "issue") "description") (.str "")) = some d ∧
      jsString h (jsOr (prop (prop msg "issue") "createdBy") (.str "Unknown")) = some c := by
  simp only [createReturns, Bool.and_eq_true, Bool.not_eq_true', Option.isSome_iff_exists] at hr
  obtain ⟨⟨⟨h1, ⟨t, ht⟩⟩, ⟨d, hd⟩⟩, ⟨c, hc⟩⟩ := hr
  exact ⟨h1, t, d, c, ht, hd, hc⟩

theorem handleCreate_thrown (h : Host) (now : String) (msg : JVal) (issues : List Issue)
    (w : World) (hmsg : isNullish msg = false) (hr : createReturns h msg = false) :
    handleCreate h now msg issues w = ⟨w, .thrown⟩ := by
  simp only [handleCreate, getProp_of_not_nullish hmsg]
  by_cases hissue : isNullish (prop msg "issue") = true
  · generalize prop msg "issue" = v at hissue
    cases v <;> simp [isNullish] at hissue <;> simp [getProp]
  · have hissue2 : isNullish (prop msg "issue") = false := by simpa using hissue
    simp only [getProp_of_not_nullish hissue2]
    cases ht : jsString h (jsOr (prop (prop msg "issue") "title") (.str "")) with
    | none => rfl
    | some t =>
      cases hd : jsString h (jsOr (prop (prop msg "issue") "description") (.str "")) with
      | none => rfl
      | some d =>
        cases hc : jsString h (jsOr (prop (prop msg "issue") "createdBy") (.str "Unknown")) with
        | none => rfl
        | some c =>
          simp [createReturns, hissue2, ht, hd, hc] at hr

theorem find_split {p : Issue → Bool} {issues : List Issue} {it : Issue}
    (hfind : issues.find? p = some it) :
    ∃ pre post, issues = pre ++ it :: post ∧ (∀ x ∈ pre, p x = false) ∧ p it = true ∧
      ∀ y, replaceFirst p y issues = pre ++ y :: post := by
  induction issues with
  | nil => simp at hfind
  | cons a l ih =>
    by_cases ha : p a = true
    · have : a = it := by simpa [List.find?, ha] using hfind
      subst this
      exact ⟨[], l, rfl, by simp, ha, fun y => by simp [replaceFirst, ha]⟩
    · have hl : l.find? p = some it := by simpa [List.find?, ha] using hfind
      obtain ⟨pre, post, h1, h2, h3, h4⟩ := ih hl
      refine ⟨a :: pre, post, by simp [h1], ?_, h3, fun y => ?_⟩
      · intro x hx
        rcases List.mem_cons.mp hx with rfl | hx
        · simpa using ha
        · exact h2 x hx
      · simp [replaceFirst, ha, h4]

theorem find_some_of_exists {p : Issue → Bool} {issues : List Issue}
    (hex : ∃ x ∈ issues, p x = true) : ∃ it, issues.find? p = some it := by
  cases hf : issues.find? p with
  | some it => exact ⟨it, rfl⟩
  | none =>
    rw [List.find?_eq_none] at hf
    obtain ⟨x, hx, hpx⟩ := hex
    exact absurd hpx (hf x hx)

theorem handleUpdate_found (h : Host) (msg : JVal) (ws : Nat) (issues : List Issue) (w : World)
    (id : Option ℚ) (it : Issue) (t d s : Option String) (a : String)
    (hmsg : isNullish msg = false)
    (hid : toNumber h (prop msg "id") = some id)
    (hfind : issues.find? (idMatches id) = some it)
    (ht : fieldUpdate h (prop (jsOr (prop msg "fields") (.obj [])) "title") = some t)
    (hd : fieldUpdate h (prop (jsOr (prop msg "fields") (.obj [])) "description") = some d)
    (hs : fieldUpdate h (prop (jsOr (prop msg "fields") (.obj [])) "status") = some s)
    (ha : jsString h (jsOr (prop msg "actor") (.str "Someone")) = some a) :
    ∃ cm, handleUpdate h msg ws issues w =
      ⟨broadcast (.update (replaceFirst (idMatches id)
          { it with title := t.getD it.title, description := d.getD it.description,
                    status := s.getD it.status } issues))
        (saveIssuesAndCommit (replaceFirst (idMatches id)
          { it with title := t.getD it.title, description := d.getD it.description,
                    status := s.getD it.status } issues) cm w), .normal⟩ := by
  have hf : truthy (jsOr (prop msg "fields") (.obj [])) = true := truthy_jsOr rfl
  simp only [handleUpdate, getProp_of_not_nullish hmsg, getProp_of_truthy hf, hid, hfind, ht, hd,
    hs, ha]
  exact ⟨_, rfl⟩

theorem updateReturns_true {h : Host} {msg : JVal} (hr : updateReturns h msg = true) :
    ∃ t d s a,
      fieldUpdate h (prop (jsOr (prop msg "fields") (.obj [])) "title") = some t ∧
      fieldUpdate h (prop (jsOr (prop msg "fields") (.obj [])) "description") = some d ∧
      fieldUpdate h (prop (jsOr (prop msg "fields") (.obj [])) "status") = some s ∧
      jsString h (jsOr (prop msg "actor") (.str "Someone")) = some a := by
  simp only [updateReturns, Bool.and_eq_true, Option.isSome_iff_exists] at hr
  obtain ⟨⟨⟨⟨t, ht⟩, ⟨d, hd⟩⟩, ⟨s, hs⟩⟩, ⟨a, ha⟩⟩ := hr
  exact ⟨t, d, s, a, ht, hd, hs, ha⟩

theorem handleUpdate_thrown (h : Host) (msg : JVal) (ws : Nat) (issues : List Issue) (w : World)
    (id : Option ℚ) (it : Issue) (hmsg : isNullish msg = false)
    (hid : toNumber h (prop msg "id") = some id)
    (hfind : issues.find? (idMatches id) = some it)
    (hr : updateReturns h msg = false) :
    handleUpdate h msg ws issues w = ⟨w, .thrown⟩ := by
  have hf : truthy (jsOr (prop msg "fields") (.obj [])) = true := truthy_jsOr rfl
  simp only [handleUpdate, getProp_of_not_nullish hmsg, getProp_of_truthy hf, hid, hfind]
  cases ht : fieldUpdate h (prop (jsOr (prop msg "fields") (.obj [])) "title") with
  | none => rfl
  | some t =>
    cases hd : fieldUpdate h (prop (jsOr (prop msg "fields") (.obj [])) "description") with
    | none => rfl
    | some d =>
      cases hs : fieldUpdate h (prop (jsOr (prop msg "fields") (.obj [])) "status") with
      | none => rfl
      | some s =>
        cases ha : jsString h (jsOr (prop msg "actor") (.str "Someone")) with
        | none => rfl
        | some a => simp [updateReturns, ht, hd, hs, ha] at hr

theorem handleUpdate_raised_id (h : Host) (msg : JVal) (ws : Nat) (issues : List Issue)
    (w : World) (hmsg : isNullish msg = false) (hid : toNumber h (prop msg "id") = none) :
    handleUpdate h msg ws issues w = ⟨w, .thrown⟩ := by
  simp only [handleUpdate, getProp_of_not_nullish hmsg, hid]

theorem handleUpdate_missing (h : Host) (msg : JVal) (ws : Nat) (issues : List Issue) (w : World)
    (id : Option ℚ) (hmsg : isNullish msg = false)
    (hid : toNumber h (prop msg "id") = some id)
    (hfind : issues.find? (idMatches id) = none) :
    handleUpdate h msg ws issues w = ⟨wsSend ws (.error "Issue not found") w, .normal⟩ := by
  simp only [handleUpdate, getProp_of_not_nullish hmsg, hid, hfind]

theorem handleAddComment_found (h : Host) (now : String) (msg : JVal) (ws : Nat)
    (issues : List Issue) (w : World) (id : Option ℚ) (it : Issue) (a x : String)
    (hmsg : isNullish msg = false)
    (hid : toNumber h (prop msg "id") = some id)
    (hfind : issues.find? (idMatches id) = some it)
    (hcomment : isNullish (prop msg "comment") = false)
    (ha : jsString h (jsOr (prop (prop msg "comment") "author") (.str "Anonymous")) = some a)
    (hx : jsString h (jsOr (prop (prop msg "comment") "text") (.str "")) = some x) :
    ∃ cm, handleAddComment h now msg ws issues w =
      ⟨broadcast (.update (replaceFirst (idMatches id)
          { it with comments := some (it.comments.getD [] ++
            [{ author := a, text := jsTrim x, createdAt := now }]) } issues))
        (saveIssuesAndCommit (replaceFirst (idMatches id)
          { it with comments := some (it.comments.getD [] ++
            [{ author := a, text := jsTrim x, createdAt := now }]) } issues) cm w),
        .normal⟩ := by
  simp only [handleAddComment, getProp_of_not_nullish hmsg, getProp_of_not_nullish hcomment,
    hid, hfind, ha, hx]
  exact ⟨_, rfl⟩

theorem commentReturns_true {h : Host} {msg : JVal} (hr : commentReturns h msg = true) :
    isNullish (prop msg "comment") = false ∧
    ∃ a x,
      jsString h (jsOr (prop (prop msg "comment") "author") (.str "Anonymous")) = some a ∧
      jsString h (jsOr (prop (prop msg "comment") "text") (.str "")) = some x := by
  simp only [commentReturns, Bool.and_eq_true, Bool.not_eq_true', Option.isSome_iff_exists] at hr
  obtain ⟨⟨h1, ⟨a, ha⟩⟩, ⟨x, hx⟩⟩ := hr
  exact ⟨h1, a, x, ha, hx⟩

theorem handleAddComment_thrown (h : Host) (now : String) (msg : JVal) (ws : Nat)
    (issues : List Issue) (w : World) (id : Option ℚ) (it : Issue)
    (hmsg : isNullish msg = false)
    (hid : toNumber h (prop msg "id") = some id)
    (hfind : issues.find? (idMatches id) = some it)
    (hr : commentReturns h msg = false) :
    handleAddComment h now msg ws issues w = ⟨w, .thrown⟩ := by
  simp only [handleAddComment, getProp_of_not_nullish hmsg, hid, hfind]
  by_cases hcomment : isNullish (prop msg "comment") = true
  · generalize prop msg "comment" = v at hcomment
    cases v <;> simp [isNullish] at hcomment <;> simp [getProp]
  · have hcomment2 : isNullish (prop msg "comment") = false := by simpa using hcomment
    simp only [getProp_of_not_nullish hcomment2]
    cases ha : jsString h (jsOr (prop (prop msg "comment") "author") (.str "Anonymous")) with
    | none => rfl
    | some a =>
      cases hx : jsString h (jsOr (prop (prop msg "comment") "text") (.str "")) with
      | none => rfl
      | some x => simp [commentReturns, hcomment2, ha, hx] at hr

theorem handleAddComment_raised_id (h : Host) (now : String) (msg : JVal) (ws : Nat)
    (issues : List Issue) (w : World) (hmsg : isNullish msg = false)
    (hid : toNumber h (prop msg "id") = none) :
    handleAddComment h now msg ws issues w = ⟨w, .thrown⟩ := by
  simp only [handleAddComment, getProp_of_not_nullish hmsg, hid]

theorem handleAddComment_missing (h : Host) (now : String) (msg : JVal) (ws : Nat)
    (issues : List Issue) (w : World) (id : Option ℚ) (hmsg : isNullish msg = false)
    (hid : toNumber h (prop msg "id") = some id)
    (hfind : issues.find? (idMatches id) = none) :
    handleAddComment h now msg ws issues w =
      ⟨wsSend ws (.error "Issue not found") w, .normal⟩ := by
  simp only [handleAddComment, getProp_of_not_nullish hmsg, hid, hfind]

theorem find_of_stored_id (issues : List Issue) (id : Option ℚ)
    (hex : ∃ x ∈ issues, id = some (x.id : ℚ)) :
    ∃ pre it post, issues.find? (idMatches id) = some it ∧ issues = pre ++ it :: post ∧
      id = some (it.id : ℚ) ∧ (∀ x ∈ pre, id ≠ some (x.id : ℚ)) ∧
      ∀ y, replaceFirst (idMatches id) y issues = pre ++ y :: post := by
  have hex2 : ∃ x ∈ issues, idMatches id x = true := by
    obtain ⟨x, hx, hxid⟩ := hex
    exact ⟨x, hx, by simp [idMatches, hxid]⟩
  obtain ⟨it, hfind⟩ := find_some_of_exists hex2
  obtain ⟨pre, post, hsplit, hpre, hit, hrep⟩ := find_split hfind
  refine ⟨pre, it, post, hfind, hsplit, ?_, ?_, hrep⟩
  · have hit2 := hit
    simp only [idMatches, decide_eq_true_eq] at hit2
    exact hit2.symm
  · intro x hx hh
    have := hpre x hx
    simp [idMatches, hh] at this

theorem broadcast_clients_getElem (payload : ServerMsg) (w : World) (i : Nat) (c : Client)
    (hc : w.clients[i]? = some c) :
    (broadcast payload w).clients[i]? =
      some (if c.readyState = OPEN then { c with received := c.received ++ [payload] } else c) := by
  simp only [broadcast, List.getElem?_map, hc, Option.map_some', deliver]

theorem mem_of_mem_replaced {pre post : List Issue} {y x : Issue}
    (hx : x ∈ pre ++ y :: post) : x = y ∨ x ∈ pre ++ post := by
  simp only [List.mem_append, List.mem_cons] at hx ⊢
  tauto

theorem mem_original_of_mem_rest {pre post : List Issue} {it x : Issue}
    (hx : x ∈ pre ++ post) : x ∈ pre ++ it :: post := by
  simp only [List.mem_append, List.mem_cons] at hx ⊢
  tauto


theorem thrown_not_normal (w : World) :
    (⟨w, .thrown⟩ : Result).completion = .normal → False := by
  intro hn
  cases hn

/-! ## Auxiliary facts about identifiers -/

theorem foldl_max_spec (l : List Issue) :
    ∀ a : Nat, a ≤ l.foldl (fun m it => max m it.id) a ∧
      (∀ x ∈ l, x.id ≤ l.foldl (fun m it => max m it.id) a) ∧
      (l.foldl (fun m it => max m it.id) a = a ∨
        ∃ x ∈ l, x.id = l.foldl (fun m it => max m it.id) a) := by
  induction l with
  | nil => intro a; simp
  | cons b l ih =>
    intro a
    obtain ⟨h1, h2, h3⟩ := ih (max a b.id)
    simp only [List.foldl_cons, List.mem_cons, forall_eq_or_imp, exists_eq_or_imp]
    refine ⟨le_trans (le_max_left _ _) h1, ⟨le_trans (le_max_right _ _) h1, h2⟩, ?_⟩
    rcases h3 with h3 | ⟨x, hx, hxe⟩
    · rcases le_total a b.id with hab | hab
      · right; left; rw [h3]; exact (max_eq_right hab).symm
      · left; rw [h3]; exact max_eq_left hab
    · right; right; exact ⟨x, hx, hxe⟩

theorem foldl_max_snoc (l : List Issue) (y : Issue) :
    (l ++ [y]).foldl (fun m it => max m it.id) 0 =
      max (l.foldl (fun m it => max m it.id) 0) y.id := by
  simp [List.foldl_append]

theorem jsAddOne_exact {n : Nat} (hn : n < 2 ^ 53) : jsAddOne n = n + 1 := by
  unfold jsAddOne
  rw [if_pos hn]

theorem handleAll_cons_normal {h : Host} {r : Request} {rs : List Request} {w w1 : World}
    (hres : handleMessage h r.now r.raw r.ws w = ⟨w1, .normal⟩) :
    handleAll h (r :: rs) w = handleAll h rs w1 := by
  simp [handleAll, hres]

theorem handleAll_cons_thrown {h : Host} {r : Request} {rs : List Request} {w w1 : World}
    (hres : handleMessage h r.now r.raw r.ws w = ⟨w1, .thrown⟩) :
    handleAll h (r :: rs) w = ⟨w1, .thrown⟩ := by
  simp [handleAll, hres]


/-! ## Auxiliary facts about `escapeHtml` -/

theorem replaceAll_data (pat : Char) (rep s : String) :
    (replaceAll pat rep s).data = s.data.flatMap (fun c => if c = pat then rep.data else [c]) :=
  rfl

theorem five_passes_data (s : String) :
    (replaceAll squote "&#39;"
      (replaceAll dquote "&quot;"
        (replaceAll '>' "&gt;"
          (replaceAll '<' "&lt;"
            (replaceAll '&' "&amp;" s))))).data = s.data.flatMap escapeChar := by
  simp only [replaceAll_data, List.flatMap_assoc]
  congr 1
  funext c
  unfold escapeChar
  by_cases h1 : c = '&'
  · subst h1; decide
  by_cases h2 : c = '<'
  · subst h2; decide
  by_cases h3 : c = '>'
  · subst h3; decide
  by_cases h4 : c = dquote
  · subst h4; decide
  by_cases h5 : c = squote
  · subst h5; decide
  simp [h1, h2, h3, h4, h5]

theorem escapeHtml_str (h : Host) (s : String) :
    ∃ e, escapeHtml h (.str s) = some e ∧ e.data = s.data.flatMap escapeChar := by
  by_cases hs : s = ""
  · subst hs
    exact ⟨"", rfl, rfl⟩
  · have ht : truthy (.str s) = true := by simp [truthy, hs]
    refine ⟨_, ?_, five_passes_data s⟩
    simp only [escapeHtml, ht, Bool.not_true, Bool.false_and, Bool.false_eq_true, if_false,
      jsString]

theorem escapeChar_of_not_special {c : Char} (hc : isHtmlSpecial c = false) :
    escapeChar c = [c] := by
  simp only [isHtmlSpecial, Bool.or_eq_false_iff, decide_eq_false_iff_not] at hc
  obtain ⟨⟨⟨⟨h1, h2⟩, h3⟩, h4⟩, h5⟩ := hc
  simp [escapeChar, h1, h2, h3, h4, h5]

theorem entityAt_of_ne_amp {c : Char} (hc : c ≠ '&') (t : List Char) :
    entityAt (c :: t) = none := by
  have e1 : "&amp;".data = ['&', 'a', 'm', 'p', ';'] := rfl
  have e2 : "&lt;".data = ['&', 'l', 't', ';'] := rfl
  have e3 : "&gt;".data = ['&', 'g', 't', ';'] := rfl
  have e4 : "&quot;".data = ['&', 'q', 'u', 'o', 't', ';'] := rfl
  have e5 : "&#39;".data = ['&', '#', '3', '9', ';'] := rfl
  have hne : ('&' == c) = false := by simpa using fun hh : '&' = c => hc hh.symm
  simp [entityAt, e1, e2, e3, e4, e5, List.isPrefixOf, hne]

theorem escapeChar_of_special {c : Char} (hc : isHtmlSpecial c = true) :
    ∃ e, escapeChar c = '&' :: e ∧ '&' ∉ e ∧
      (∀ t, entityAt ('&' :: (e ++ t)) = some (c, t)) ∧
      (e = "amp;".data ∨ e = "lt;".data ∨ e = "gt;".data ∨ e = "quot;".data ∨
        e = "#39;".data) ∧
      (∀ x ∈ '&' :: e, x ≠ '<' ∧ x ≠ '>' ∧ x ≠ dquote ∧ x ≠ squote) := by
  have e1 : "&amp;".data = ['&', 'a', 'm', 'p', ';'] := rfl
  have e2 : "&lt;".data = ['&', 'l', 't', ';'] := rfl
  have e3 : "&gt;".data = ['&', 'g', 't', ';'] := rfl
  have e4 : "&quot;".data = ['&', 'q', 'u', 'o', 't', ';'] := rfl
  have e5 : "&#39;".data = ['&', '#', '3', '9', ';'] := rfl
  simp only [isHtmlSpecial, Bool.or_eq_true, decide_eq_true_eq] at hc
  rcases hc with (((rfl | rfl) | rfl) | rfl) | rfl
  · refine ⟨"amp;".data, by decide, by decide, fun t => ?_, Or.inl rfl, by decide⟩
    simp [entityAt, e1, List.isPrefixOf]
  · refine ⟨"lt;".data, by decide, by decide, fun t => ?_, Or.inr (Or.inl rfl), by decide⟩
    simp [entityAt, e1, e2, List.isPrefixOf]
  · refine ⟨"gt;".data, by decide, by decide, fun t => ?_, Or.inr (Or.inr (Or.inl rfl)),
      by decide⟩
    simp [entityAt, e1, e2, e3, List.isPrefixOf]
  · refine ⟨"quot;".data, by decide, by decide, fun t => ?_,
      Or.inr (Or.inr (Or.inr (Or.inl rfl))), by decide⟩
    simp [entityAt, e1, e2, e3, e4, List.isPrefixOf]
  · refine ⟨"#39;".data, by decide, by decide, fun t => ?_,
      Or.inr (Or.inr (Or.inr (Or.inr rfl))), by decide⟩
    simp [entityAt, e1, e2, e3, e4, e5, List.isPrefixOf]

theorem flatMap_escapeChar_no_markup (l : List Char) :
    ∀ c ∈ l.flatMap escapeChar, c ≠ '<' ∧ c ≠ '>' ∧ c ≠ dquote ∧ c ≠ squote := by
  intro c hc
  obtain ⟨a, -, hca⟩ := List.mem_flatMap.mp hc
  by_cases hs : isHtmlSpecial a = true
  · obtain ⟨e, he, -, -, -, hall⟩ := escapeChar_of_special hs
    rw [he] at hca
    exact hall c hca
  · have hs2 : isHtmlSpecial a = false := by simpa using hs
    rw [escapeChar_of_not_special hs2, List.mem_singleton] at hca
    subst hca
    simp only [isHtmlSpecial, Bool.or_eq_false_iff, decide_eq_false_iff_not] at hs2
    obtain ⟨⟨⟨⟨-, h2⟩, h3⟩, h4⟩, h5⟩ := hs2
    exact ⟨h2, h3, h4, h5⟩

theorem split_after_block {e r pre post : List Char} (he : '&' ∉ e)
    (hsplit : e ++ r = pre ++ '&' :: post) : ∃ pre1, r = pre1 ++ '&' :: post := by
  induction e generalizing pre with
  | nil => exact ⟨pre, hsplit⟩
  | cons a e ih =>
    rcases pre with _ | ⟨x, pre⟩
    · simp only [List.cons_append, List.nil_append, List.cons.injEq] at hsplit
      exact absurd (List.mem_cons.mpr (Or.inl hsplit.1.symm)) he
    · simp only [List.cons_append, List.cons.injEq] at hsplit
      exact ih (fun hh => he (List.mem_cons_of_mem _ hh)) hsplit.2

theorem flatMap_escapeChar_amp (l : List Char) :
    ∀ pre post, l.flatMap escapeChar = pre ++ '&' :: post →
      ∃ rest, post = "amp;".data ++ rest ∨ post = "lt;".data ++ rest ∨
        post = "gt;".data ++ rest ∨ post = "quot;".data ++ rest ∨
        post = "#39;".data ++ rest := by
  induction l with
  | nil => intro pre post hh; simp at hh
  | cons a l ih =>
    intro pre post hh
    rw [List.flatMap_cons] at hh
    by_cases hs : isHtmlSpecial a = true
    · obtain ⟨e, he, hamp, -, hform, -⟩ := escapeChar_of_special hs
      rw [he] at hh
      rcases pre with _ | ⟨x, pre⟩
      · simp only [List.cons_append, List.nil_append, List.cons.injEq, true_and] at hh
        refine ⟨l.flatMap escapeChar, ?_⟩
        rw [← hh]
        rcases hform with rfl | rfl | rfl | rfl | rfl <;> simp
      · simp only [List.cons_append, List.cons.injEq] at hh
        obtain ⟨pre1, hr⟩ := split_after_block hamp hh.2
        exact ih pre1 post hr
    · have hs2 : isHtmlSpecial a = false := by simpa using hs
      rw [escapeChar_of_not_special hs2] at hh
      rcases pre with _ | ⟨x, pre⟩
      · simp only [List.cons_append, List.nil_append, List.cons.injEq] at hh
        rw [hh.1] at hs2
        exact absurd hs2 (by decide)
      · simp only [List.cons_append, List.nil_append, List.cons.injEq] at hh
        exact ih pre post hh.2

theorem decodeFuel_flatMap_escapeChar (l : List Char) :
    ∀ n, (l.flatMap escapeChar).length ≤ n → decodeFuel n (l.flatMap escapeChar) = l := by
  induction l with
  | nil => intro n _; cases n <;> rfl
  | cons a l ih =>
    intro n hn
    rw [List.flatMap_cons] at hn ⊢
    by_cases hs : isHtmlSpecial a = true
    · obtain ⟨e, he, -, hent, -, -⟩ := escapeChar_of_special hs
      rw [he] at hn ⊢
      simp only [List.cons_append, List.length_cons, List.length_append] at hn ⊢
      obtain ⟨m, rfl⟩ : ∃ m, n = m + 1 := ⟨n - 1, by omega⟩
      simp only [decodeFuel, hent]
      rw [ih m (by omega)]
    · have hs2 : isHtmlSpecial a = false := by simpa using hs
      rw [escapeChar_of_not_special hs2] at hn ⊢
      simp only [List.cons_append, List.nil_append, List.length_cons] at hn ⊢
      obtain ⟨m, rfl⟩ : ∃ m, n = m + 1 := ⟨n - 1, by omega⟩
      have hne : a ≠ '&' := by
        intro hh
        rw [hh] at hs2
        exact absurd hs2 (by decide)
      simp only [decodeFuel, entityAt_of_ne_amp hne]
      rw [ih m (by omega)]

theorem flatMap_escapeChar_plain (l : List Char) (hl : ∀ c ∈ l, isHtmlSpecial c = false) :
    l.flatMap escapeChar = l := by
  induction l with
  | nil => rfl
  | cons a l ih =>
    rw [List.flatMap_cons, escapeChar_of_not_special (hl a (by simp)),
      ih (fun c hc => hl c (List.mem_cons_of_mem _ hc))]
    rfl

/-! ## The handler on messages whose conversions return -/

/-- When `Number(msg.id)` returns a number that is the identifier of no stored issue, an
`update_issue` or `add_comment` message is answered with `Issue not found`, to the sender
only, and nothing is saved, committed or broadcast. -/
theorem unknown_id_answered (h : Host) (now raw : String) (ws : Nat) (w : World)
    (issues : List Issue) (msg : JVal) (id : Option ℚ)
    (hfile : w.file = .stored issues) (hparse : h.jsonParse raw = some msg)
    (hty : isStr (prop msg "type") "update_issue" = true ∨
      isStr (prop msg "type") "add_comment" = true)
    (hid : toNumber h (prop msg "id") = some id)
    (hno : ∀ x ∈ issues, id ≠ some (x.id : ℚ)) :
    handleMessage h now raw ws w = ⟨wsSend ws (.error "Issue not found") w, .normal⟩ := by
  have hfind := find_none_of_no_match hno
  rcases hty with hty | hty
  · obtain ⟨kvs, rfl⟩ := obj_of_isStr_prop hty
    rw [handleMessage_update _ _ _ _ _ _ hparse hty, loadIssues_stored hfile]
    exact handleUpdate_missing h _ ws issues w id rfl hid hfind
  · obtain ⟨kvs, rfl⟩ := obj_of_isStr_prop hty
    rw [handleMessage_comment _ _ _ _ _ _ hparse hty, loadIssues_stored hfile]
    exact handleAddComment_missing h now _ ws issues w id rfl hid hfind

/-- When `Number(msg.id)` is the identifier of a stored issue and the conversions of the
provided fields and of the actor return, an `update_issue` message replaces the first issue
of that identifier by a copy in which exactly the provided fields of `title`, `description`
and `status` are set to their string forms. -/
theorem update_applied (h : Host) (now raw : String) (ws : Nat) (w : World)
    (issues : List Issue) (msg : JVal) (t d s : Option String) (a : String)
    (hfile : w.file = .stored issues) (hparse : h.jsonParse raw = some msg)
    (hty : isStr (prop msg "type") "update_issue" = true)
    (hex : ∃ x ∈ issues, toNumber h (prop msg "id") = some (some (x.id : ℚ)))
    (ht : fieldUpdate h (prop (jsOr (prop msg "fields") (.obj [])) "title") = some t)
    (hd : fieldUpdate h (prop (jsOr (prop msg "fields") (.obj [])) "description") = some d)
    (hs : fieldUpdate h (prop (jsOr (prop msg "fields") (.obj [])) "status") = some s)
    (ha : jsString h (jsOr (prop msg "actor") (.str "Someone")) = some a) :
    ∃ pre it post,
      issues = pre ++ it :: post ∧
      toNumber h (prop msg "id") = some (some (it.id : ℚ)) ∧
      (∀ x ∈ pre, toNumber h (prop msg "id") ≠ some (some (x.id : ℚ))) ∧
      (handleMessage h now raw ws w).completion = .normal ∧
      (handleMessage h now raw ws w).world.file = .stored (pre ++
        { it with title := t.getD it.title, description := d.getD it.description,
                  status := s.getD it.status } :: post) := by
  obtain ⟨kvs, rfl⟩ := obj_of_isStr_prop hty
  obtain ⟨x0, hx0, hid⟩ := hex
  obtain ⟨pre, it, post, hfind, hsplit, hit, hpre, hrep⟩ :=
    find_of_stored_id issues (some (x0.id : ℚ)) ⟨x0, hx0, rfl⟩
  obtain ⟨cm, hres⟩ :=
    handleUpdate_found h (.obj kvs) ws issues w _ it t d s a rfl hid hfind ht hd hs ha
  have hmain := handleMessage_update h now _ ws w _ hparse hty
  rw [loadIssues_stored hfile] at hmain
  simp only at hmain
  rw [hres, hrep] at hmain
  refine ⟨pre, it, post, hsplit, ?_, ?_, ?_, ?_⟩
  · rw [hid, hit]
  · intro x hx hh
    rw [hid] at hh
    exact hpre x hx (Option.some.inj hh)
  · rw [hmain]
  · rw [hmain]; rfl

/-! ## The claims -/

/-! ### Claim C1 -/

/-- Claim C1, counterexample. The stored collection holds one issue with identifier `2^53`.
Two `create_issue` messages are handled in order. `nextId` is `2^53` both times, because
`2^53 + 1` is not a double and rounds back to `2^53`: the two created issues get the
identifier the stored issue already has, so the assigned identifiers neither increase nor
differ from the existing one, and they are not `max + 1`. -/
theorem create_at_two_pow_53_repeats_id :
    sampleHost.jsonParse payloadCreateBugA = some msgCreateBugA ∧
    (handleAll sampleHost
      [⟨sampleNow, payloadCreateBugA, 0⟩, ⟨sampleNow, payloadCreateBugA, 0⟩] worldBig).world.file =
      .stored [issueBig,
        { id := 2 ^ 53, title := "Bug A", description := "", status := "Open",
          createdBy := "Alice", createdAt := sampleNow, comments := some [] },
        { id := 2 ^ 53, title := "Bug A", description := "", status := "Open",
          createdBy := "Alice", createdAt := sampleNow, comments := some [] }] ∧
    issueBig.id = 2 ^ 53 ∧
    nextId [issueBig] = 2 ^ 53 := by
  refine ⟨rfl, by decide, by decide, by decide⟩

/-- Claim C1, as amended. Let the file hold `issues`, let every request of the sequence
parse to a message whose `type` is `create_issue`, and let the maximum stored identifier
plus the number of requests be at most `2^53`. Then the run of `handleMessage` over the
sequence leaves the file holding `issues ++ created` where:
* there is one created issue for each request up to the first on which the `create_issue`
  branch raises (`createReturns` says when it returns: the `issue` is neither `null` nor
  `undefined` and no `String(..)` of its fields raises); so if the branch returns on every
  message there is one created issue per request and the run ends normally;
* each created issue `c`, with `pre` the issues created before it, has
  `c.id = nextId (issues ++ pre)`, and this is `m + 1` for the maximum `m` of the identifiers
  of `issues ++ pre` (`0` when there is none); it is positive and greater than, hence
  different from, the identifier of every issue of `issues ++ pre`;
* the identifiers of the created issues are strictly increasing;
* if the identifiers of `issues` were pairwise different, so are those of
  `issues ++ created`. -/
theorem created_ids_strictly_increase (h : Host) (reqs : List Request) (w : World)
    (issues : List Issue) (hfile : w.file = .stored issues)
    (hreqs : ∀ r ∈ reqs, ∃ msg, h.jsonParse r.raw = some msg ∧
      isStr (prop msg "type") "create_issue" = true)
    (hbound : issues.foldl (fun m it => max m it.id) 0 + reqs.length ≤ 2 ^ 53) :
    ∃ created : List Issue,
      (handleAll h reqs w).world.file = .stored (issues ++ created) ∧
      created.length =
        (reqs.takeWhile (fun r => (h.jsonParse r.raw).any (createReturns h))).length ∧
      ((∀ r ∈ reqs, ∀ msg, h.jsonParse r.raw = some msg → createReturns h msg = true) →
        created.length = reqs.length ∧ (handleAll h reqs w).completion = .normal) ∧
      (∀ pre c post, created = pre ++ c :: post →
        c.id = nextId (issues ++ pre) ∧
        (∃ m, c.id = m + 1 ∧ (∀ x ∈ issues ++ pre, x.id ≤ m) ∧
          (m = 0 ∨ ∃ x ∈ issues ++ pre, x.id = m)) ∧
        0 < c.id ∧
        ∀ x ∈ issues ++ pre, x.id < c.id) ∧
      (created.map (fun c => c.id)).Pairwise (fun a b => a < b) ∧
      ((issues.map (fun c => c.id)).Nodup →
        ((issues ++ created).map (fun c => c.id)).Nodup) := by
  induction reqs generalizing w issues with
  | nil =>
    refine ⟨[], by simpa [handleAll] using hfile, rfl, fun _ => ⟨rfl, rfl⟩, ?_, by simp,
      by simp⟩
    intro pre c post hh
    simp at hh
  | cons r rs ih =>
    obtain ⟨msg, hparse, hty⟩ := hreqs r (by simp)
    have hmsg : isNullish msg = false := by
      obtain ⟨kvs, rfl⟩ := obj_of_isStr_prop hty
      rfl
    have hstep := handleMessage_create h r.now _ r.ws w _ hparse hty
    rw [loadIssues_stored hfile] at hstep
    simp only at hstep
    by_cases hret : createReturns h msg = true
    · obtain ⟨hissue, t, d, c, ht, hd, hc⟩ := createReturns_true hret
      obtain ⟨cm, hres⟩ := handleCreate_ok h r.now msg issues w t d c hmsg hissue ht hd hc
      rw [hres] at hstep
      rw [handleAll_cons_normal hstep]
      generalize hnew : ({ id := nextId issues, title := jsTrim t, description := jsTrim d,
                           status := "Open", createdBy := jsTrim c, createdAt := r.now,
                           comments := some [] } : Issue) = new
      have hnewid : new.id = nextId issues := by rw [← hnew]
      obtain ⟨hm0, hmle, hmex⟩ := foldl_max_spec issues 0
      have hlt : issues.foldl (fun m it => max m it.id) 0 < 2 ^ 53 := by
        simp only [List.length_cons] at hbound
        omega
      have hid : new.id = issues.foldl (fun m it => max m it.id) 0 + 1 := by
        rw [hnewid, nextId, jsAddOne_exact hlt]
      have hbound2 : (issues ++ [new]).foldl (fun m it => max m it.id) 0 + rs.length ≤ 2 ^ 53 := by
        rw [foldl_max_snoc, hid]
        simp only [List.length_cons] at hbound
        rw [max_eq_right (Nat.le_succ _)]
        omega
      obtain ⟨created, hfile2, hlen2, hall2, hfresh, hpair, hnodup⟩ :=
        ih (broadcast (.update (issues ++ [new])) (saveIssuesAndCommit (issues ++ [new]) cm w))
          (issues ++ [new]) rfl (fun r1 hr1 => hreqs r1 (List.mem_cons_of_mem _ hr1)) hbound2
      have hnewlt : ∀ x ∈ issues, x.id < new.id := by
        intro x hx
        have := hmle x hx
        omega
      refine ⟨new :: created, ?_, ?_, ?_, ?_, ?_, ?_⟩
      · rw [hfile2]; simp
      · simp [List.takeWhile, hparse, hret, hlen2]
      · intro hall
        obtain ⟨hlen, hcomp⟩ := hall2 (fun r1 hr1 => hall r1 (List.mem_cons_of_mem _ hr1))
        exact ⟨by simp [hlen], hcomp⟩
      · intro pre c post hh
        rcases pre with _ | ⟨p, pre⟩
        · simp only [List.nil_append, List.cons.injEq] at hh
          obtain ⟨rfl, -⟩ := hh
          simp only [List.append_nil]
          refine ⟨hnewid, ⟨_, hid, hmle, ?_⟩, by omega, hnewlt⟩
          rcases hmex with hz | hx
          · exact Or.inl hz
          · exact Or.inr hx
        · simp only [List.cons_append, List.cons.injEq] at hh
          obtain ⟨rfl, hrest⟩ := hh
          have := hfresh pre c post hrest
          simpa [List.append_assoc] using this
      · simp only [List.map_cons, List.pairwise_cons]
        refine ⟨?_, hpair⟩
        intro b hb
        obtain ⟨c, hc, rfl⟩ := List.mem_map.mp hb
        obtain ⟨pre, post, hsplit⟩ := List.append_of_mem hc
        exact (hfresh pre c post hsplit).2.2.2 new (by simp)
      · intro hnd
        have hnd2 : ((issues ++ [new]).map (fun c => c.id)).Nodup := by
          rw [List.map_append, List.nodup_append]
          refine ⟨hnd, by simp, ?_⟩
          intro a ha hb
          simp only [List.map_cons, List.map_nil, List.mem_singleton] at hb
          obtain ⟨x, hx, rfl⟩ := List.mem_map.mp ha
          have := hnewlt x hx
          omega
        have := hnodup hnd2
        simpa [List.append_assoc] using this
    · have hret2 : createReturns h msg = false := by simpa using hret
      rw [handleCreate_thrown h r.now msg issues w hmsg hret2] at hstep
      rw [handleAll_cons_thrown hstep]
      refine ⟨[], by simpa using hfile, by simp [List.takeWhile, hparse, hret2], ?_, ?_, by simp,
        by simp⟩
      · intro hall
        have := hall r (by simp) msg hparse
        rw [hret2] at this
        exact absurd this (by decide)
      · intro pre c post hh
        simp at hh

/-- Claim C1, witness: two `create_issue` messages on the collection holding issue 1. -/
theorem created_ids_strictly_increase_witness :
    worldOne.file = .stored [issueOne] ∧
    [issueOne].foldl (fun m it => max m it.id) 0 + 2 ≤ 2 ^ 53 ∧
    ∃ created : List Issue,
      (handleAll sampleHost
        [⟨sampleNow, payloadCreateBugA, 0⟩, ⟨sampleNow, payloadCreateBugA, 1⟩] worldOne).world.file =
        .stored ([issueOne] ++ created) ∧
      created.length = 2 ∧
      (created.map (fun c => c.id)).Pairwise (fun a b => a < b) ∧
      (([issueOne] ++ created).map (fun c => c.id)).Nodup := by
  have hparse : sampleHost.jsonParse payloadCreateBugA = some msgCreateBugA := rfl
  obtain ⟨created, hf, -, hall, -, hp, hn⟩ :=
    created_ids_strictly_increase sampleHost
      [⟨sampleNow, payloadCreateBugA, 0⟩, ⟨sampleNow, payloadCreateBugA, 1⟩] worldOne [issueOne] rfl
      (by
        intro r hr
        simp only [List.mem_cons, List.mem_singleton, List.not_mem_nil, or_false] at hr
        rcases hr with rfl | rfl <;> exact ⟨msgCreateBugA, rfl, by decide⟩)
      (by decide)
  refine ⟨rfl, by decide, created, hf, ?_, hp, hn (by decide)⟩
  refine (hall ?_).1
  intro r hr msg hm
  simp only [List.mem_cons, List.mem_singleton, List.not_mem_nil, or_false] at hr
  rcases hr with rfl | rfl <;>
  · rw [hparse] at hm
    cases hm
    decide

/-! ### Claim C2 -/

/-- Claim C2, the code at two failing inputs. The stored collection holds issue 1. The
messages `{type:"update_issue", id:{toString:1}, ..}` and `{type:"add_comment",
id:{toString:1}, ..}` name an identifier that is the identifier of no stored issue. On
each, `Number(msg.id)` raises a `TypeError` and `handleMessage` raises with it: the
collection is untouched, but no `Issue not found` is sent to the sender. -/
theorem unknown_id_object_raises :
    sampleHost.jsonParse payloadUpdateIdObj = some msgUpdateIdObj ∧
    toNumber sampleHost (prop msgUpdateIdObj "id") = none ∧
    handleMessage sampleHost sampleNow payloadUpdateIdObj 0 worldOne = ⟨worldOne, .thrown⟩ ∧
    sampleHost.jsonParse payloadCommentIdObj = some msgCommentIdObj ∧
    toNumber sampleHost (prop msgCommentIdObj "id") = none ∧
    handleMessage sampleHost sampleNow payloadCommentIdObj 0 worldOne = ⟨worldOne, .thrown⟩ := by
  refine ⟨rfl, by decide, by decide, rfl, by decide, by decide⟩

/-! ### Claim C3 -/

/-- Claim C3, the code at two failing inputs. The stored collection holds issue 1, whose
status is `"Open"`. On `{type:"update_issue", id:1, fields:{status:"Closed"},
actor:{toString:1}}` the conversion of the actor in the commit message raises a
`TypeError` after the status has been assigned and before the save: `handleMessage`
raises and the stored status is still `"Open"`. On `{type:"update_issue", id:1,
fields:{title:{toString:1}}, actor:"Bob"}` the conversion `String(fields.title)` raises:
the provided title is not set. -/
theorem update_with_object_actor_raises :
    sampleHost.jsonParse payloadUpdateActorObj = some msgUpdateActorObj ∧
    jsString sampleHost (prop msgUpdateActorObj "actor") = none ∧
    handleMessage sampleHost sampleNow payloadUpdateActorObj 0 worldOne = ⟨worldOne, .thrown⟩ ∧
    worldOne.file = .stored [issueOne] ∧
    issueOne.status = "Open" ∧
    sampleHost.jsonParse payloadUpdateTitleObj = some msgUpdateTitleObj ∧
    handleMessage sampleHost sampleNow payloadUpdateTitleObj 0 worldOne = ⟨worldOne, .thrown⟩ := by
  refine ⟨rfl, by decide, by decide, rfl, rfl, rfl, by decide⟩

/-! ### Claim C4 -/

/-- Claim C4, counterexample. The message `{type:"add_comment", id:1, comment:{author:0,
text:"hi"}}` has an author that is neither absent nor empty and whose string form is `"0"`,
yet the appended comment has the author `"Anonymous"`: `0 || 'Anonymous'` is `'Anonymous'`.
For the message `{type:"add_comment", id:1}`, which has no `comment`, the call raises and
appends nothing; and so it does for `{type:"add_comment", id:1,
comment:{author:{toString:1}, text:"hi"}}`, whose author has no string form. -/
theorem comment_author_zero_becomes_anonymous :
    sampleHost.jsonParse payloadCommentZero = some msgCommentZero ∧
    jsString sampleHost (prop (prop msgCommentZero "comment") "author") = some "0" ∧
    (handleMessage sampleHost sampleNow payloadCommentZero 0 worldOne).world.file =
      .stored [{ issueOne with comments := some [⟨"Anonymous", "hi", sampleNow⟩] }] ∧
    sampleHost.jsonParse payloadCommentBare = some msgCommentBare ∧
    handleMessage sampleHost sampleNow payloadCommentBare 0 worldOne = ⟨worldOne, .thrown⟩ ∧
    sampleHost.jsonParse payloadCommentAuthorObj = some msgCommentAuthorObj ∧
    handleMessage sampleHost sampleNow payloadCommentAuthorObj 0 worldOne =
      ⟨worldOne, .thrown⟩ := by
  refine ⟨rfl, by decide, by decide, rfl, by decide, rfl, by decide⟩

/-- Claim C4, as amended. Let the file hold `issues` and let the payload parse to a message
whose `type` is `add_comment`, whose `Number(msg.id)` is the identifier of a stored issue,
whose `comment` is neither `null` nor `undefined`, and for which
`String(comment.author || "Anonymous")` returns `a` and `String(comment.text || "")`
returns `x`. Then `issues` splits as `pre ++ it :: post` with `it` the first issue of that
identifier, the call returns normally, and the file afterwards holds `pre ++ it1 :: post`,
where `it1` is `it` with its comments (none counting as the empty sequence) followed by
exactly one new comment, of author `a`, text `x.trim()` and the time of the call. A falsy
author (absent, `""`, `null`, `0`, `false`) makes `a` be `"Anonymous"`, a falsy text makes
`x` be `""`. -/
theorem comment_appended_last (h : Host) (now raw : String) (ws : Nat) (w : World)
    (issues : List Issue) (msg : JVal) (a x : String)
    (hfile : w.file = .stored issues) (hparse : h.jsonParse raw = some msg)
    (hty : isStr (prop msg "type") "add_comment" = true)
    (hcomment : isNullish (prop msg "comment") = false)
    (ha : jsString h (jsOr (prop (prop msg "comment") "author") (.str "Anonymous")) = some a)
    (hx : jsString h (jsOr (prop (prop msg "comment") "text") (.str "")) = some x)
    (hex : ∃ y ∈ issues, toNumber h (prop msg "id") = some (some (y.id : ℚ))) :
    ∃ pre it post,
      issues = pre ++ it :: post ∧
      toNumber h (prop msg "id") = some (some (it.id : ℚ)) ∧
      (∀ y ∈ pre, toNumber h (prop msg "id") ≠ some (some (y.id : ℚ))) ∧
      (handleMessage h now raw ws w).completion = .normal ∧
      (handleMessage h now raw ws w).world.file = .stored (pre ++
        { it with comments := some (it.comments.getD [] ++
            [{ author := a, text := jsTrim x, createdAt := now }]) } :: post) ∧
      (truthy (prop (prop msg "comment") "author") = false → a = "Anonymous") ∧
      (truthy (prop (prop msg "comment") "text") = false → x = "") := by
  obtain ⟨kvs, rfl⟩ := obj_of_isStr_prop hty
  obtain ⟨x0, hx0, hid⟩ := hex
  obtain ⟨pre, it, post, hfind, hsplit, hit, hpre, hrep⟩ :=
    find_of_stored_id issues (some (x0.id : ℚ)) ⟨x0, hx0, rfl⟩
  obtain ⟨cm, hres⟩ :=
    handleAddComment_found h now (.obj kvs) ws issues w _ it a x rfl hid hfind hcomment ha hx
  have hmain := handleMessage_comment h now _ ws w _ hparse hty
  rw [loadIssues_stored hfile] at hmain
  simp only at hmain
  rw [hres, hrep] at hmain
  refine ⟨pre, it, post, hsplit, ?_, ?_, ?_, ?_, ?_, ?_⟩
  · rw [hid, hit]
  · intro y hy hh
    rw [hid] at hh
    exact hpre y hy (Option.some.inj hh)
  · rw [hmain]
  · rw [hmain]; rfl
  · intro hfalsy
    have hor : jsOr (prop (prop (.obj kvs) "comment") "author") (.str "Anonymous") =
        .str "Anonymous" := by
      simp [jsOr, hfalsy]
    rw [hor] at ha
    simp only [jsString, Option.some.injEq] at ha
    exact ha.symm
  · intro hfalsy
    have hor : jsOr (prop (prop (.obj kvs) "comment") "text") (.str "") = .str "" := by
      simp [jsOr, hfalsy]
    rw [hor] at hx
    simp only [jsString, Option.some.injEq] at hx
    exact hx.symm

/-- Claim C4, witness: `{type:"add_comment", id:1, comment:{author:"X", text:" hi "}}` on
the collection holding issue 1. -/
theorem comment_appended_last_witness :
    ∃ pre it post, [issueOne] = pre ++ it :: post ∧
      (handleMessage sampleHost sampleNow payloadComment1 0 worldOne).world.file =
        .stored (pre ++ { it with comments := some (it.comments.getD [] ++
          [{ author := "X", text := "hi", createdAt := sampleNow }]) } :: post) := by
  obtain ⟨pre, it, post, hsplit, -, -, -, hfile, -, -⟩ :=
    comment_appended_last sampleHost sampleNow payloadComment1 0 worldOne
      [issueOne] msgComment1 "X" " hi " rfl rfl (by decide) (by decide) (by decide) (by decide)
      ⟨issueOne, by simp, by decide⟩
  exact ⟨pre, it, post, hsplit, hfile⟩

/-! ### Claim C5 -/

/-- Claim C5, counterexample. The message `{type:"create_issue", issue:{title:0,
createdBy:""}}` on the empty collection supplies a title whose trimmed string form is `"0"`
and a `createdBy` whose trimmed value is `""`; the created issue has the title `""` and the
`createdBy` `"Unknown"`. And on `{type:"create_issue", issue:{title:{toString:1},
createdBy:"Alice"}}`, whose `issue` is an object, `String(msg.issue.title)` raises and no
issue is created. -/
theorem create_falsy_fields_take_defaults :
    sampleHost.jsonParse payloadCreateFalsy = some msgCreateFalsy ∧
    (jsString sampleHost (prop (prop msgCreateFalsy "issue") "title")).map jsTrim = some "0" ∧
    (jsString sampleHost (prop (prop msgCreateFalsy "issue") "createdBy")).map jsTrim =
      some "" ∧
    (handleMessage sampleHost sampleNow payloadCreateFalsy 0 worldEmpty).world.file =
      .stored [{ id := 1, title := "", description := "", status := "Open",
                 createdBy := "Unknown", createdAt := sampleNow, comments := some [] }] ∧
    sampleHost.jsonParse payloadCreateTitleObj = some msgCreateTitleObj ∧
    handleMessage sampleHost sampleNow payloadCreateTitleObj 0 worldEmpty =
      ⟨worldEmpty, .thrown⟩ := by
  refine ⟨rfl, by decide, by decide, by decide, rfl, by decide⟩

/-- Claim C5, as amended. Let the file hold `issues` and let the payload parse to a message
whose `type` is `create_issue`, whose `issue` is neither `null` nor `undefined` (an object
in particular), and for which `String(issue.title || "")`, `String(issue.description ||
"")` and `String(issue.createdBy || "Unknown")` return `t`, `d` and `c`. Then
`handleMessage` returns normally and the file afterwards holds `issues` followed by exactly
one new issue: its `id` is `nextId issues`, its status is `"Open"`, its comments are empty,
its `createdAt` is the time of the call, and its `title`, `description` and `createdBy` are
`t.trim()`, `d.trim()` and `c.trim()`. A falsy supplied value (absent, `""`, `null`, `0`,
`false`) gives the default: `""` for the title and the description, `"Unknown"` for
`createdBy`. On the empty collection with the issue `{title: "Bug A", createdBy: "Alice"}`
the file holds exactly one issue, with id 1, title `"Bug A"`, status `"Open"`, creator
`"Alice"` and no comments. -/
theorem create_appends_one_issue (h : Host) (now raw : String) (ws : Nat) (w : World)
    (issues : List Issue) (msg : JVal) (t d c : String)
    (hfile : w.file = .stored issues) (hparse : h.jsonParse raw = some msg)
    (hty : isStr (prop msg "type") "create_issue" = true)
    (hissue : isNullish (prop msg "issue") = false)
    (ht : jsString h (jsOr (prop (prop msg "issue") "title") (.str "")) = some t)
    (hd : jsString h (jsOr (prop (prop msg "issue") "description") (.str "")) = some d)
    (hc : jsString h (jsOr (prop (prop msg "issue") "createdBy") (.str "Unknown")) = some c) :
    (handleMessage h now raw ws w).completion = .normal ∧
    (handleMessage h now raw ws w).world.file = .stored (issues ++ [
      { id := nextId issues, title := jsTrim t, description := jsTrim d, status := "Open",
        createdBy := jsTrim c, createdAt := now, comments := some [] }]) ∧
    (truthy (prop (prop msg "issue") "title") = false → t = "") ∧
    (truthy (prop (prop msg "issue") "description") = false → d = "") ∧
    (truthy (prop (prop msg "issue") "createdBy") = false → c = "Unknown") ∧
    (issues = [] →
      prop msg "issue" = .obj [("title", .str "Bug A"), ("createdBy", .str "Alice")] →
      (handleMessage h now raw ws w).world.file =
        .stored [{ id := 1, title := "Bug A", description := "", status := "Open",
                   createdBy := "Alice", createdAt := now, comments := some [] }]) := by
  obtain ⟨kvs, rfl⟩ := obj_of_isStr_prop hty
  obtain ⟨cm, hres⟩ := handleCreate_ok h now (.obj kvs) issues w t d c rfl hissue ht hd hc
  have hmain := handleMessage_create h now _ ws w _ hparse hty
  rw [loadIssues_stored hfile] at hmain
  simp only at hmain
  rw [hres] at hmain
  have hdefault : ∀ (v : JVal) (dflt s : String), truthy v = false →
      jsString h (jsOr v (.str dflt)) = some s → s = dflt := by
    intro v dflt s hv hs
    have hor : jsOr v (.str dflt) = .str dflt := by simp [jsOr, hv]
    rw [hor] at hs
    simp only [jsString, Option.some.injEq] at hs
    exact hs.symm
  refine ⟨by rw [hmain], by rw [hmain]; rfl, fun hv => hdefault _ _ _ hv ht,
    fun hv => hdefault _ _ _ hv hd, fun hv => hdefault _ _ _ hv hc, ?_⟩
  intro hnil hobj
  rw [hobj] at ht hd hc
  have p1 : jsOr (prop (.obj [("title", .str "Bug A"), ("createdBy", .str "Alice")]) "title")
      (.str "") = .str "Bug A" := by rfl
  have p2 : jsOr (prop (.obj [("title", .str "Bug A"), ("createdBy", .str "Alice")])
      "description") (.str "") = .str "" := by rfl
  have p3 : jsOr (prop (.obj [("title", .str "Bug A"), ("createdBy", .str "Alice")])
      "createdBy") (.str "Unknown") = .str "Alice" := by rfl
  rw [p1] at ht
  rw [p2] at hd
  rw [p3] at hc
  simp only [jsString, Option.some.injEq] at ht hd hc
  have e1 : jsTrim "Bug A" = "Bug A" := by decide
  have e2 : jsTrim "" = "" := by decide
  have e3 : jsTrim "Alice" = "Alice" := by decide
  have e4 : nextId [] = 1 := by decide
  rw [hmain, hnil, ← ht, ← hd, ← hc]
  simp only [broadcast, saveIssuesAndCommit, List.nil_append]
  rw [e1, e2, e3, e4]

/-- Claim C5, witness: `{type:"create_issue", issue:{title:"Bug A", createdBy:"Alice"}}` on
the empty collection. -/
theorem create_appends_one_issue_witness :
    (handleMessage sampleHost sampleNow payloadCreateBugA 0 worldEmpty).completion = .normal ∧
    (handleMessage sampleHost sampleNow payloadCreateBugA 0 worldEmpty).world.file =
      .stored [{ id := 1, title := "Bug A", description := "", status := "Open",
                 createdBy := "Alice", createdAt := sampleNow, comments := some [] }] := by
  have hthm := create_appends_one_issue sampleHost sampleNow payloadCreateBugA 0 worldEmpty []
    msgCreateBugA "Bug A" "" "Alice" rfl rfl (by decide) (by decide) (by decide) (by decide)
    (by decide)
  exact ⟨hthm.1, hthm.2.2.2.2.2 rfl rfl⟩

/-! ### Claim C6 -/

/-- Claim C6. Let the payload parse to a mutation of the collection `loadIssues` returns: a
`create_issue`, an `update_issue` whose `Number(msg.id)` is a stored identifier, or an
`add_comment` whose `Number(msg.id)` is a stored identifier. The mutation is successful,
that is `handleMessage` returns normally, exactly when no property read and no conversion
of its branch raises (`createReturns`, `updateReturns`, `commentReturns`). Whenever it is
successful there is a collection `issues1` such that: the file afterwards holds `issues1`;
no connection is added or removed; every connection whose `readyState` is `OPEN` (the
sender or not) has received exactly one more payload, `{type: "update", issues: issues1}`;
every other connection has received nothing; and `issues1` is the collection after the
mutation: the loaded collection followed by the new issue, or with the first issue of the
identifier replaced by its updated copy, or by its copy with the new comment appended. -/
theorem successful_mutation_broadcasts_once (h : Host) (now raw : String) (ws : Nat) (w : World)
    (msg : JVal) (hparse : h.jsonParse raw = some msg)
    (hmut :
      isStr (prop msg "type") "create_issue" = true ∨
      (isStr (prop msg "type") "update_issue" = true ∧
        ∃ x ∈ (loadIssues w).1, toNumber h (prop msg "id") = some (some (x.id : ℚ))) ∨
      (isStr (prop msg "type") "add_comment" = true ∧
        ∃ x ∈ (loadIssues w).1, toNumber h (prop msg "id") = some (some (x.id : ℚ)))) :
    ((handleMessage h now raw ws w).completion = .normal ↔
      (isStr (prop msg "type") "create_issue" = true → createReturns h msg = true) ∧
      (isStr (prop msg "type") "update_issue" = true → updateReturns h msg = true) ∧
      (isStr (prop msg "type") "add_comment" = true → commentReturns h msg = true)) ∧
    ((handleMessage h now raw ws w).completion = .normal →
      ∃ issues1,
        (handleMessage h now raw ws w).world.file = .stored issues1 ∧
        (handleMessage h now raw ws w).world.clients.length = w.clients.length ∧
        (∀ (i : Nat) (c : Client), w.clients[i]? = some c →
          (handleMessage h now raw ws w).world.clients[i]? =
            some (if c.readyState = OPEN then
              { c with received := c.received ++ [ServerMsg.update issues1] } else c)) ∧
        (isStr (prop msg "type") "create_issue" = true →
          ∃ t d c,
            jsString h (jsOr (prop (prop msg "issue") "title") (.str "")) = some t ∧
            jsString h (jsOr (prop (prop msg "issue") "description") (.str "")) = some d ∧
            jsString h (jsOr (prop (prop msg "issue") "createdBy") (.str "Unknown")) = some c ∧
            issues1 = (loadIssues w).1 ++ [
              { id := nextId (loadIssues w).1, title := jsTrim t, description := jsTrim d,
                status := "Open", createdBy := jsTrim c, createdAt := now,
                comments := some [] }]) ∧
        (isStr (prop msg "type") "update_issue" = true →
          ∃ pre it post t d s,
            (loadIssues w).1 = pre ++ it :: post ∧
            toNumber h (prop msg "id") = some (some (it.id : ℚ)) ∧
            (∀ x ∈ pre, toNumber h (prop msg "id") ≠ some (some (x.id : ℚ))) ∧
            fieldUpdate h (prop (jsOr (prop msg "fields") (.obj [])) "title") = some t ∧
            fieldUpdate h (prop (jsOr (prop msg "fields") (.obj [])) "description") = some d ∧
            fieldUpdate h (prop (jsOr (prop msg "fields") (.obj [])) "status") = some s ∧
            issues1 = pre ++
              { it with title := t.getD it.title, description := d.getD it.description,
                        status := s.getD it.status } :: post) ∧
        (isStr (prop msg "type") "add_comment" = true →
          ∃ pre it post a x,
            (loadIssues w).1 = pre ++ it :: post ∧
            toNumber h (prop msg "id") = some (some (it.id : ℚ)) ∧
            (∀ y ∈ pre, toNumber h (prop msg "id") ≠ some (some (y.id : ℚ))) ∧
            jsString h (jsOr (prop (prop msg "comment") "author") (.str "Anonymous")) =
              some a ∧
            jsString h (jsOr (prop (prop msg "comment") "text") (.str "")) = some x ∧
            issues1 = pre ++
              { it with comments := some (it.comments.getD [] ++
                [{ author := a, text := jsTrim x, createdAt := now }]) } :: post)) := by
  have hnot : ∀ {s t : String}, isStr (prop msg "type") s = true → s ≠ t →
      (isStr (prop msg "type") t = true → False) := by
    intro s t hs hne ht
    rw [isStr_excl t hs hne] at ht
    exact absurd ht (by decide)
  rcases hmut with hty | ⟨hty, hex⟩ | ⟨hty, hex⟩
  · -- create_issue
    have hmsg : isNullish msg = false := by
      obtain ⟨kvs, rfl⟩ := obj_of_isStr_prop hty
      rfl
    have hmain := handleMessage_create h now raw ws w msg hparse hty
    by_cases hret : createReturns h msg = true
    · obtain ⟨hissue, t, d, c, ht, hd, hc⟩ := createReturns_true hret
      obtain ⟨cm, hres⟩ :=
        handleCreate_ok h now msg (loadIssues w).1 (loadIssues w).2 t d c hmsg hissue ht hd hc
      rw [hres] at hmain
      rw [hmain]
      refine ⟨⟨fun _ => ⟨fun _ => hret, fun hu => (hnot hty (by decide) hu).elim,
        fun hu => (hnot hty (by decide) hu).elim⟩, fun _ => rfl⟩, fun _ => ⟨_, rfl, ?_, ?_,
        fun _ => ⟨t, d, c, ht, hd, hc, rfl⟩, fun hu => (hnot hty (by decide) hu).elim,
        fun hu => (hnot hty (by decide) hu).elim⟩⟩
      · simp [broadcast, saveIssuesAndCommit, loadIssues_clients]
      · intro i c hc
        apply broadcast_clients_getElem
        simpa [saveIssuesAndCommit, loadIssues_clients] using hc
    · have hret2 : createReturns h msg = false := by simpa using hret
      rw [handleCreate_thrown h now msg _ _ hmsg hret2] at hmain
      rw [hmain]
      refine ⟨⟨fun hn => (thrown_not_normal _ hn).elim, fun hh => absurd (hh.1 hty) hret⟩,
        fun hn => (thrown_not_normal _ hn).elim⟩
  · -- update_issue on a stored identifier
    have hmsg : isNullish msg = false := by
      obtain ⟨kvs, rfl⟩ := obj_of_isStr_prop hty
      rfl
    have hmain := handleMessage_update h now raw ws w msg hparse hty
    obtain ⟨x0, hx0, hid⟩ := hex
    obtain ⟨pre, it, post, hfind, hsplit, hit, hpre, hrep⟩ :=
      find_of_stored_id (loadIssues w).1 (some (x0.id : ℚ)) ⟨x0, hx0, rfl⟩
    by_cases hret : updateReturns h msg = true
    · obtain ⟨t, d, s, a, ht, hd, hs, ha⟩ := updateReturns_true hret
      obtain ⟨cm, hres⟩ := handleUpdate_found h msg ws (loadIssues w).1 (loadIssues w).2 _ it
        t d s a hmsg hid hfind ht hd hs ha
      rw [hres, hrep] at hmain
      rw [hmain]
      refine ⟨⟨fun _ => ⟨fun hu => (hnot hty (by decide) hu).elim, fun _ => hret,
        fun hu => (hnot hty (by decide) hu).elim⟩, fun _ => rfl⟩, fun _ => ⟨_, rfl, ?_, ?_,
        fun hu => (hnot hty (by decide) hu).elim,
        fun _ => ⟨pre, it, post, t, d, s, hsplit, ?_, ?_, ht, hd, hs, rfl⟩,
        fun hu => (hnot hty (by decide) hu).elim⟩⟩
      · simp [broadcast, saveIssuesAndCommit, loadIssues_clients]
      · intro i c hc
        apply broadcast_clients_getElem
        simpa [saveIssuesAndCommit, loadIssues_clients] using hc
      · rw [hid, hit]
      · intro x hx hh
        rw [hid] at hh
        exact hpre x hx (Option.some.inj hh)
    · have hret2 : updateReturns h msg = false := by simpa using hret
      rw [handleUpdate_thrown h msg ws _ _ _ it hmsg hid hfind hret2] at hmain
      rw [hmain]
      refine ⟨⟨fun hn => (thrown_not_normal _ hn).elim, fun hh => absurd (hh.2.1 hty) hret⟩,
        fun hn => (thrown_not_normal _ hn).elim⟩
  · -- add_comment on a stored identifier
    have hmsg : isNullish msg = false := by
      obtain ⟨kvs, rfl⟩ := obj_of_isStr_prop hty
      rfl
    have hmain := handleMessage_comment h now raw ws w msg hparse hty
    obtain ⟨x0, hx0, hid⟩ := hex
    obtain ⟨pre, it, post, hfind, hsplit, hit, hpre, hrep⟩ :=
      find_of_stored_id (loadIssues w).1 (some (x0.id : ℚ)) ⟨x0, hx0, rfl⟩
    by_cases hret : commentReturns h msg = true
    · obtain ⟨hcomment, a, x, ha, hx⟩ := commentReturns_true hret
      obtain ⟨cm, hres⟩ := handleAddComment_found h now msg ws (loadIssues w).1
        (loadIssues w).2 _ it a x hmsg hid hfind hcomment ha hx
      rw [hres, hrep] at hmain
      rw [hmain]
      refine ⟨⟨fun _ => ⟨fun hu => (hnot hty (by decide) hu).elim,
        fun hu => (hnot hty (by decide) hu).elim, fun _ => hret⟩, fun _ => rfl⟩,
        fun _ => ⟨_, rfl, ?_, ?_, fun hu => (hnot hty (by decide) hu).elim,
        fun hu => (hnot hty (by decide) hu).elim,
        fun _ => ⟨pre, it, post, a, x, hsplit, ?_, ?_, ha, hx, rfl⟩⟩⟩
      · simp [broadcast, saveIssuesAndCommit, loadIssues_clients]
      · intro i c hc
        apply broadcast_clients_getElem
        simpa [saveIssuesAndCommit, loadIssues_clients] using hc
      · rw [hid, hit]
      · intro y hy hh
        rw [hid] at hh
        exact hpre y hy (Option.some.inj hh)
    · have hret2 : commentReturns h msg = false := by simpa using hret
      rw [handleAddComment_thrown h now msg ws _ _ _ it hmsg hid hfind hret2] at hmain
      rw [hmain]
      refine ⟨⟨fun hn => (thrown_not_normal _ hn).elim, fun hh => absurd (hh.2.2 hty) hret⟩,
        fun hn => (thrown_not_normal _ hn).elim⟩

/-- Claim C6, witness: a `create_issue` sent by the second, closed connection; the open
connection receives the update with the new collection, the closed one nothing. -/
theorem successful_mutation_broadcasts_once_witness :
    (handleMessage sampleHost sampleNow payloadCreateBugA 1 worldOne).completion = .normal ∧
    ∃ issues1,
      (handleMessage sampleHost sampleNow payloadCreateBugA 1 worldOne).world.file =
        .stored issues1 ∧
      (handleMessage sampleHost sampleNow payloadCreateBugA 1 worldOne).world.clients[0]? =
        some { readyState := 1, received := [ServerMsg.update issues1] } ∧
      (handleMessage sampleHost sampleNow payloadCreateBugA 1 worldOne).world.clients[1]? =
        some { readyState := 3, received := [] } ∧
      issues1.length = 2 := by
  obtain ⟨hiff, hb⟩ :=
    successful_mutation_broadcasts_once sampleHost sampleNow payloadCreateBugA 1 worldOne
      msgCreateBugA rfl (Or.inl (by decide))
  have hc := hiff.mpr ⟨fun _ => by decide, fun hh => absurd hh (by decide),
    fun hh => absurd hh (by decide)⟩
  obtain ⟨issues1, hf, -, hcl, hcreate, -, -⟩ := hb hc
  obtain ⟨t, d, c, -, -, -, hissues⟩ := hcreate (by decide)
  refine ⟨hc, issues1, hf, hcl 0 _ rfl, hcl 1 _ rfl, ?_⟩
  rw [hissues]
  rfl

/-! ### Claim C7 -/

/-- Claim C7, the code at three failing inputs. The payloads `null`,
`{"type":"create_issue"}` and `{"type":"add_comment","id":1}` (for a stored issue 1) parse
as JSON, and `handleMessage` raises a `TypeError` on each (`msg.type` of `null`,
`msg.issue.title` and `msg.comment.author` of `undefined`): it does not return normally, it
applies no mutation and it sends no error message to the sender. -/
theorem null_payload_raises :
    sampleHost.jsonParse payloadNull = some .null ∧
    handleMessage sampleHost sampleNow payloadNull 0 worldOne = ⟨worldOne, .thrown⟩ ∧
    sampleHost.jsonParse payloadCreateBare = some msgCreateBare ∧
    handleMessage sampleHost sampleNow payloadCreateBare 0 worldOne = ⟨worldOne, .thrown⟩ ∧
    sampleHost.jsonParse payloadCommentBare = some msgCommentBare ∧
    handleMessage sampleHost sampleNow payloadCommentBare 0 worldOne = ⟨worldOne, .thrown⟩ := by
  refine ⟨rfl, by decide, rfl, by decide, rfl, by decide⟩

/-! ### Claim C8 -/

/-- Claim C8, counterexample. With a file `issues.json` that does not parse, the message
`{type:"ping"}` gets the answer `Unknown message type`, and the file has been overwritten
with `[]` by `loadIssues`: the persisted state has changed. And the payload `null` parses,
has none of the three types, and gets no answer: the call raises. -/
theorem unknown_type_resets_corrupt_file :
    sampleHost.jsonParse payloadPing = some msgPing ∧
    worldCorrupt.file = .corrupt "not json" ∧
    handleMessage sampleHost sampleNow payloadPing 0 worldCorrupt =
      ⟨{ file := .stored [], commits := [],
         clients := [{ readyState := 1, received := [ServerMsg.error "Unknown message type"] },
                     { readyState := 3, received := [] }] }, .normal⟩ ∧
    (handleMessage sampleHost sampleNow payloadPing 0 worldCorrupt).world.file ≠
      worldCorrupt.file ∧
    sampleHost.jsonParse payloadNull = some .null ∧
    handleMessage sampleHost sampleNow payloadNull 0 worldOne = ⟨worldOne, .thrown⟩ := by
  refine ⟨rfl, rfl, by decide, by decide, rfl, by decide⟩

/-- Claim C8, as amended. First, when the payload does not parse, `handleMessage` returns
normally, the file is untouched (not loaded, not created, not reset, not saved), no commit
is attempted, and the only payload sent is `{type: "error", message: "Invalid JSON"}`, to
the sender `ws`. Second, when the payload parses to a message other than `null` and
`undefined` whose `type` is none of `create_issue`, `update_issue`, `add_comment`,
`handleMessage` returns normally and the only payload sent is
`{type: "error", message: "Unknown message type"}`, to the sender `ws`; a file holding a
collection is unchanged and no commit is attempted; a file that does not parse is reset to
`[]`; a missing file is created as `[]` and the initial commit is attempted. -/
theorem invalid_or_unknown_reports_to_sender_only (h : Host) (now raw : String) (ws : Nat)
    (w : World) :
    (h.jsonParse raw = none →
      (handleMessage h now raw ws w).completion = .normal ∧
      (handleMessage h now raw ws w).world.file = w.file ∧
      (handleMessage h now raw ws w).world.commits = w.commits ∧
      (handleMessage h now raw ws w).world.clients.length = w.clients.length ∧
      ∀ i c, w.clients[i]? = some c →
        (handleMessage h now raw ws w).world.clients[i]? =
          some (if i = ws then
            { c with received := c.received ++ [ServerMsg.error "Invalid JSON"] } else c)) ∧
    (∀ msg, h.jsonParse raw = some msg → isNullish msg = false →
      isStr (prop msg "type") "create_issue" = false →
      isStr (prop msg "type") "update_issue" = false →
      isStr (prop msg "type") "add_comment" = false →
      (handleMessage h now raw ws w).completion = .normal ∧
      (handleMessage h now raw ws w).world.clients.length = w.clients.length ∧
      (∀ i c, w.clients[i]? = some c →
        (handleMessage h now raw ws w).world.clients[i]? =
          some (if i = ws then
            { c with received := c.received ++ [ServerMsg.error "Unknown message type"] }
            else c)) ∧
      (∀ issues, w.file = .stored issues →
        (handleMessage h now raw ws w).world.file = .stored issues ∧
        (handleMessage h now raw ws w).world.commits = w.commits) ∧
      (∀ text, w.file = .corrupt text →
        (handleMessage h now raw ws w).world.file = .stored [] ∧
        (handleMessage h now raw ws w).world.commits = w.commits) ∧
      (w.file = .missing →
        (handleMessage h now raw ws w).world.file = .stored [] ∧
        (handleMessage h now raw ws w).world.commits =
          w.commits ++ ["Initial issues.json created by server"])) := by
  constructor
  · intro hparse
    have hres : handleMessage h now raw ws w = ⟨wsSend ws (.error "Invalid JSON") w, .normal⟩ := by
      simp [handleMessage, hparse]
    rw [hres]
    refine ⟨rfl, rfl, rfl, by simp [wsSend], fun i c hc => wsSend_clients_getElem ws _ w i c hc⟩
  · intro msg hparse hnn h1 h2 h3
    rw [handleMessage_other _ _ _ _ _ _ hparse hnn h1 h2 h3]
    refine ⟨rfl, by simp [wsSend, loadIssues_clients], ?_, ?_, ?_, ?_⟩
    · intro i c hc
      apply wsSend_clients_getElem
      simpa [loadIssues_clients] using hc
    · intro issues hfile
      simp [wsSend, loadIssues_stored hfile, hfile]
    · intro text hfile
      simp [wsSend, loadIssues, ensureIssuesFile, hfile]
    · intro hfile
      simp [wsSend, loadIssues, ensureIssuesFile, hfile]

/-- Claim C8, witness: the text `oops` on a file that does not parse, and `{type:"ping"}` on
the collection holding issue 1. -/
theorem invalid_or_unknown_reports_to_sender_only_witness :
    (handleMessage sampleHost sampleNow "oops" 0 worldCorrupt).world.file = worldCorrupt.file ∧
    (handleMessage sampleHost sampleNow "oops" 0 worldCorrupt).world.clients[0]? =
      some { readyState := 1, received := [ServerMsg.error "Invalid JSON"] } ∧
    (handleMessage sampleHost sampleNow payloadPing 0 worldOne).world.file = .stored [issueOne] ∧
    (handleMessage sampleHost sampleNow payloadPing 0 worldOne).world.clients[0]? =
      some { readyState := 1, received := [ServerMsg.error "Unknown message type"] } := by
  have h1 := (invalid_or_unknown_reports_to_sender_only sampleHost sampleNow "oops" 0
    worldCorrupt).1 rfl
  have h2 := (invalid_or_unknown_reports_to_sender_only sampleHost sampleNow payloadPing 0
    worldOne).2 msgPing rfl (by decide) (by decide) (by decide) (by decide)
  exact ⟨h1.2.1, h1.2.2.2.2 0 _ rfl, (h2.2.2.2.1 [issueOne] rfl).1, h2.2.2.1 0 _ rfl⟩

/-! ### Claim C9 -/

/-- Claim C9. For every string `s`, `escapeHtml(s)` returns a string `e` such that: no
character of `e` is `<`, `>`, `"` or `'`; every `&` in `e` is followed by `amp;`, `lt;`,
`gt;`, `quot;` or `#39;`; decoding the five entities in `e` gives back `s` (for the empty
string too); and if `s` has none of the five special characters then `e` is `s`. -/
theorem escapeHtml_neutralises_markup (h : Host) (s : String) :
    ∃ e, escapeHtml h (.str s) = some e ∧
      (∀ c ∈ e.data, c ≠ '<' ∧ c ≠ '>' ∧ c ≠ dquote ∧ c ≠ squote) ∧
      (∀ pre post, e.data = pre ++ '&' :: post →
        ∃ rest, post = "amp;".data ++ rest ∨ post = "lt;".data ++ rest ∨
          post = "gt;".data ++ rest ∨ post = "quot;".data ++ rest ∨
          post = "#39;".data ++ rest) ∧
      decodeEntities e = s ∧
      ((∀ c ∈ s.data, isHtmlSpecial c = false) → e = s) := by
  obtain ⟨e, he, hdata⟩ := escapeHtml_str h s
  refine ⟨e, he, ?_, ?_, ?_, ?_⟩
  · rw [hdata]
    exact flatMap_escapeChar_no_markup s.data
  · rw [hdata]
    exact flatMap_escapeChar_amp s.data
  · unfold decodeEntities
    rw [show e.length = e.data.length from rfl, hdata,
      decodeFuel_flatMap_escapeChar s.data _ (le_refl _)]
  · intro hplain
    have := flatMap_escapeChar_plain s.data hplain
    rw [← hdata] at this
    exact String.ext this

/-- Claim C9, witness: a string with markup is recovered by decoding, and a plain string is
returned unchanged. -/
theorem escapeHtml_neutralises_markup_witness :
    (∃ e, escapeHtml sampleHost (.str "<a href=x>T&C</a>") = some e ∧
      decodeEntities e = "<a href=x>T&C</a>") ∧
    escapeHtml sampleHost (.str "plain text") = some "plain text" := by
  obtain ⟨e, he, -, -, hdec, -⟩ := escapeHtml_neutralises_markup sampleHost "<a href=x>T&C</a>"
  obtain ⟨e2, he2, -, -, -, hplain⟩ := escapeHtml_neutralises_markup sampleHost "plain text"
  refine ⟨⟨e, he, hdec⟩, ?_⟩
  rw [he2, hplain (by decide)]

/-! ### Claim C10 -/

/-- Claim C10, counterexample. Every status of the stored collection is one of the three
values, and after `{type:"update_issue", id:1, fields:{status:"Done"}, actor:"Bob"}` issue
1 has the status `"Done"`, which is none of them. -/
theorem update_sets_status_outside_enumeration :
    sampleHost.jsonParse payloadUpdateDone = some msgUpdateDone ∧
    (∀ x ∈ [issueOne], validStatus x.status = true) ∧
    (handleMessage sampleHost sampleNow payloadUpdateDone 0 worldOne).world.file =
      .stored [{ issueOne with status := "Done" }] ∧
    validStatus "Done" = false := by
  refine ⟨rfl, by decide, by decide, by decide⟩

/-- Claim C10, as amended. Let the file hold `issues`, every status in it being `"Open"`,
`"In Progress"` or `"Closed"`, and let the payload be any text such that, if it parses to an
`update_issue` message whose `fields` provide a `status`, the string form of that status
(if `String(..)` returns one) is one of the three values. Then after `handleMessage`,
whether it returns or raises, the file holds a collection in which every status is one of
the three values. -/
theorem status_enumeration_preserved (h : Host) (now raw : String) (ws : Nat) (w : World)
    (issues : List Issue) (hfile : w.file = .stored issues)
    (hinv : ∀ x ∈ issues, validStatus x.status = true)
    (hst : ∀ msg, h.jsonParse raw = some msg →
      isStr (prop msg "type") "update_issue" = true →
      isDefined (prop (jsOr (prop msg "fields") (.obj [])) "status") = true →
      ∀ str, jsString h (prop (jsOr (prop msg "fields") (.obj [])) "status") = some str →
        validStatus str = true) :
    ∃ issues1, (handleMessage h now raw ws w).world.file = .stored issues1 ∧
      ∀ x ∈ issues1, validStatus x.status = true := by
  cases hparse : h.jsonParse raw with
  | none =>
    refine ⟨issues, ?_, hinv⟩
    simp [handleMessage, hparse, wsSend, hfile]
  | some msg =>
    by_cases hnn : isNullish msg = true
    · refine ⟨issues, ?_, hinv⟩
      rw [handleMessage_nullish _ _ _ _ _ _ hparse hnn, loadIssues_stored hfile]
      exact hfile
    have hnn2 : isNullish msg = false := by simpa using hnn
    by_cases h1 : isStr (prop msg "type") "create_issue" = true
    · rw [handleMessage_create _ _ _ _ _ _ hparse h1, loadIssues_stored hfile]
      by_cases hret : createReturns h msg = true
      · obtain ⟨hissue, t, d, c, ht, hd, hc⟩ := createReturns_true hret
        obtain ⟨cm, hres⟩ := handleCreate_ok h now msg issues w t d c hnn2 hissue ht hd hc
        rw [hres]
        refine ⟨_, rfl, ?_⟩
        intro x hx
        rcases List.mem_append.mp hx with hx | hx
        · exact hinv x hx
        · rw [List.mem_singleton.mp hx]
          show validStatus "Open" = true
          decide
      · rw [handleCreate_thrown h now msg issues w hnn2 (by simpa using hret)]
        exact ⟨issues, hfile, hinv⟩
    by_cases h2 : isStr (prop msg "type") "update_issue" = true
    · rw [handleMessage_update _ _ _ _ _ _ hparse h2, loadIssues_stored hfile]
      cases hid : toNumber h (prop msg "id") with
      | none =>
        rw [handleUpdate_raised_id h msg ws issues w hnn2 hid]
        exact ⟨issues, hfile, hinv⟩
      | some id =>
        cases hfind : issues.find? (idMatches id) with
        | none =>
          rw [handleUpdate_missing h msg ws issues w id hnn2 hid hfind]
          exact ⟨issues, by simpa [wsSend] using hfile, hinv⟩
        | some it =>
          by_cases hret : updateReturns h msg = true
          · obtain ⟨t, d, s, a, ht, hd, hs, ha⟩ := updateReturns_true hret
            obtain ⟨cm, hres⟩ :=
              handleUpdate_found h msg ws issues w id it t d s a hnn2 hid hfind ht hd hs ha
            obtain ⟨pre, post, hsplit, -, -, hrep⟩ := find_split hfind
            rw [hres, hrep]
            refine ⟨_, rfl, ?_⟩
            intro x hx
            rcases mem_of_mem_replaced hx with hx | hx
            · rw [hx]
              show validStatus (s.getD it.status) = true
              cases s with
              | none => exact hinv it (by rw [hsplit]; simp)
              | some str =>
                obtain ⟨hdef, hstr⟩ := fieldUpdate_some_some hs
                exact hst msg hparse h2 hdef str hstr
            · exact hinv x (by rw [hsplit]; exact mem_original_of_mem_rest hx)
          · rw [handleUpdate_thrown h msg ws issues w id it hnn2 hid hfind (by simpa using hret)]
            exact ⟨issues, hfile, hinv⟩
    by_cases h3 : isStr (prop msg "type") "add_comment" = true
    · rw [handleMessage_comment _ _ _ _ _ _ hparse h3, loadIssues_stored hfile]
      cases hid : toNumber h (prop msg "id") with
      | none =>
        rw [handleAddComment_raised_id h now msg ws issues w hnn2 hid]
        exact ⟨issues, hfile, hinv⟩
      | some id =>
        cases hfind : issues.find? (idMatches id) with
        | none =>
          rw [handleAddComment_missing h now msg ws issues w id hnn2 hid hfind]
          exact ⟨issues, by simpa [wsSend] using hfile, hinv⟩
        | some it =>
          by_cases hret : commentReturns h msg = true
          · obtain ⟨hcomment, a, x, ha, hx⟩ := commentReturns_true hret
            obtain ⟨cm, hres⟩ := handleAddComment_found h now msg ws issues w id it a x hnn2
              hid hfind hcomment ha hx
            obtain ⟨pre, post, hsplit, -, -, hrep⟩ := find_split hfind
            rw [hres, hrep]
            refine ⟨_, rfl, ?_⟩
            intro y hy
            rcases mem_of_mem_replaced hy with hy | hy
            · rw [hy]
              exact hinv it (by rw [hsplit]; simp)
            · exact hinv y (by rw [hsplit]; exact mem_original_of_mem_rest hy)
          · rw [handleAddComment_thrown h now msg ws issues w id it hnn2 hid hfind
              (by simpa using hret)]
            exact ⟨issues, hfile, hinv⟩
    · rw [handleMessage_other _ _ _ _ _ _ hparse hnn2 (by simpa using h1) (by simpa using h2)
        (by simpa using h3), loadIssues_stored hfile]
      exact ⟨issues, by simpa [wsSend] using hfile, hinv⟩

/-- Claim C10, witness: `{type:"update_issue", id:1, fields:{status:"Closed"}, actor:"Bob"}`
on the collection holding issue 1. -/
theorem status_enumeration_preserved_witness :
    ∃ issues1,
      (handleMessage sampleHost sampleNow payloadUpdateClosed 0 worldOne).world.file =
        .stored issues1 ∧
      ∀ x ∈ issues1, validStatus x.status = true := by
  have hparse : sampleHost.jsonParse payloadUpdateClosed = some msgUpdateClosed := rfl
  exact status_enumeration_preserved sampleHost sampleNow payloadUpdateClosed 0 worldOne
    [issueOne] rfl (by decide) (by
      intro msg hm
      rw [hparse] at hm
      cases hm
      intro _ _ str hstr
      have hval : jsString sampleHost
          (prop (jsOr (prop msgUpdateClosed "fields") (.obj [])) "status") = some "Closed" := by
        decide
      rw [hval] at hstr
      cases hstr
      decide)

end IssueTracker
